import Mathlib

/-!
Verification development for the Transaction Extraction & Validation Engine
of the Morphy repository (source: `api/utils/transaction-extractor.js` and
`api/utils/validator.js`).

Modelling conventions:
* JS numbers that hold monetary values are modelled as exact rationals (`ℚ`);
  the decimal literals of the source are represented exactly.
* JS `null` is modelled as `Option.none`; the record types of this code base
  (`Transaction`, `ExtractionResult`) initialise every field, so `undefined`
  never occurs on their fields and field reads never throw.
* Impure reads (`Date.now()`, `new Date()`) are threaded as an explicit
  `now : Int` parameter (milliseconds since the Unix epoch).
* The regular expressions of the bank formats quantify only single-character
  classes, so they are embedded by an exact preference-ordered backtracking
  matcher (`matchRI` below) over a small pattern datatype.
-/

namespace Morphy

/-! ### Character classes (JS semantics) -/

/-- JS `\d` character class. -/
def jsDigit (c : Char) : Bool := '0' ≤ c && c ≤ '9'

/-- JS `\s` character class (ASCII whitespace; the inputs of this code base
contain no exotic Unicode spaces). -/
def jsWs (c : Char) : Bool :=
  c = ' ' || c = '\t' || c = '\n' || c = '\r' || c = '\x0b' || c = '\x0c'

/-- JS `.` without the `s` flag: any character except a line terminator. -/
def jsDot (c : Char) : Bool := c ≠ '\n' && c ≠ '\r'

/-- The `[\d,]` class used by amount tokens. -/
def digitOrComma (c : Char) : Bool := jsDigit c || c = ','

/-- The `[\/\-\.]` class used by date tokens. -/
def dateSep (c : Char) : Bool := c = '/' || c = '-' || c = '.'

/-- Case-insensitive single character comparison (for `/i` patterns). -/
def ciChar (target : Char) (c : Char) : Bool := c.toLower = target.toLower

/-! ### Small list helpers -/

/-- Length of the maximal prefix of `s` whose characters satisfy `cls`. -/
def charRunLen (cls : Char → Bool) : List Char → Nat
  | [] => 0
  | c :: cs => if cls c then charRunLen cls cs + 1 else 0

/-- `leadMatch n h` : does `h` start with `n`? -/
def leadMatch : List Char → List Char → Bool
  | [], _ => true
  | _ :: _, [] => false
  | a :: n, b :: h => a = b && leadMatch n h

/-- JS `String.prototype.includes` on character lists. -/
def isSubstr (needle : List Char) : List Char → Bool
  | [] => needle.isEmpty
  | c :: t => leadMatch needle (c :: t) || isSubstr needle t

/-- JS `String.prototype.trim` (both ends, whitespace). -/
def trimChars (l : List Char) : List Char :=
  ((l.dropWhile jsWs).reverse.dropWhile jsWs).reverse

def trimJs (s : String) : String := ⟨trimChars s.data⟩

/-- Lower-case a string character-wise (ASCII, matching `toLowerCase` on the
inputs of this code base). -/
def lowerStr (s : String) : String := ⟨s.data.map Char.toLower⟩

/-- Numeric value of a digit list (most significant first). -/
def digitsVal (l : List Char) : Nat :=
  l.foldl (fun a c => a * 10 + (c.toNat - '0'.toNat)) 0

/-- JS `Math.abs` (an executable absolute value on `ℚ`). -/
def jsAbs (q : ℚ) : ℚ := if q < 0 then -q else q

/-! ### JS `parseFloat`

`parseFloat` parses the longest numeric prefix (optional sign, integer part,
optional fractional part) and returns `NaN` (modelled `none`) when no digit is
found.  Exponent notation never occurs on the cleaned amount strings of this
code base and is not modelled. -/

def parseFloatQ (l₀ : List Char) : Option ℚ :=
  let l := l₀.dropWhile jsWs
  let sgn : ℚ × List Char :=
    match l with
    | '-' :: r => (-1, r)
    | '+' :: r => (1, r)
    | r => (1, r)
  let ip := sgn.2.takeWhile jsDigit
  let rest := sgn.2.dropWhile jsDigit
  let fp :=
    match rest with
    | '.' :: r => r.takeWhile jsDigit
    | _ => []
  if ip.isEmpty && fp.isEmpty then none
  else some (sgn.1 * ((digitsVal ip : ℚ) + (digitsVal fp : ℚ) / (10 : ℚ) ^ fp.length))

/-! ### Preference-ordered backtracking regex matcher

Every regular expression of the bank-format patterns is a sequence of
single-character classes with counted quantifiers (greedy or lazy), plus
optional greedy groups `( ... )?`.  `matchRI` explores consumption counts in
exactly the backtracking preference order of a JS regex engine and returns the
first complete (anchored) match; an optional group is tried participating
first.  Captured text is accumulated per capture-slot. -/

/-- One item of an embedded regular expression: either a quantified character
class (optionally contributing its consumed text to capture slot `cap`), or an
optional greedy group of items. -/
inductive RItem where
  | cls (f : Char → Bool) (lo : Nat) (hi : Option Nat) (lzy : Bool) (cap : Option Nat)
  | grpOpt (items : List RItem)

/-- Size measure used for the termination of `matchRI`. -/
def risSize : List RItem → Nat
  | [] => 0
  | .cls _ _ _ _ _ :: r => 1 + risSize r
  | .grpOpt items :: r => 1 + risSize items + risSize r

theorem risSize_append (a b : List RItem) :
    risSize (a ++ b) = risSize a + risSize b := by
  induction a with
  | nil => simp [risSize]
  | cons i r ih => cases i <;> simp [risSize, ih] <;> omega

/-- The consumption counts `lo ≤ k ≤ top` in preference order (ascending for a
lazy quantifier, descending for a greedy one). -/
def countsFor (lo top : Nat) (lzy : Bool) : List Nat :=
  if lo ≤ top then
    let asc := List.range' lo (top - lo + 1)
    if lzy then asc else asc.reverse
  else []

/-- Capture store: association list from capture slot to accumulated text. -/
def capUpd : List (Nat × List Char) → Nat → List Char → List (Nat × List Char)
  | [], n, cs => [(n, cs)]
  | (m, old) :: rest, n, cs =>
    if m = n then (m, old ++ cs) :: rest else (m, old) :: capUpd rest n cs

def capApp (caps : List (Nat × List Char)) (slot : Option Nat) (cs : List Char) :
    List (Nat × List Char) :=
  match slot with
  | none => caps
  | some n => capUpd caps n cs

/-- Anchored match of an item sequence against a character list, returning the
capture store of the first match in backtracking preference order. -/
def matchRI : List RItem → List Char → List (Nat × List Char) →
    Option (List (Nat × List Char))
  | [], s, caps => if s.isEmpty then some caps else none
  | .cls f lo hi lzy cap :: rest, s, caps =>
    let m := charRunLen f s
    let top := match hi with | none => m | some h => min h m
    (countsFor lo top lzy).findSome? fun k =>
      matchRI rest (s.drop k) (capApp caps cap (s.take k))
  | .grpOpt items :: rest, s, caps =>
    match matchRI (items ++ rest) s caps with
    | some r => some r
    | none => matchRI rest s caps
termination_by l _ _ => risSize l
decreasing_by
  all_goals simp [risSize, risSize_append]

/-- Named capture groups of a JS match object: entry `i` of the list is group
`i+1` (absent groups are `none`). -/
abbrev MatchGroups := List (Option String)

/-- Run an anchored pattern with `g` capture groups against a string,
producing the JS match-group list. -/
def runPattern (items : List RItem) (g : Nat) (s : String) : Option MatchGroups :=
  (matchRI items s.data []).map fun caps =>
    (List.range' 1 g).map fun i =>
      (caps.find? (fun e => e.1 = i)).map fun e => (⟨e.2⟩ : String)

/-- Unanchored leftmost search (JS `String.prototype.match` with an
unanchored pattern): try each start position left to right.  The pattern is
expected to end with a lazy `.*`-style filler so that `matchRI`'s end anchor
is inert. -/
def searchRI (items : List RItem) : List Char → Option (List (Nat × List Char))
  | [] =>
    match matchRI items [] [] with
    | some c => some c
    | none => none
  | c :: t =>
    match matchRI items (c :: t) [] with
    | some r => some r
    | none => searchRI items t

/-- Trailing filler equivalent to a lazy "rest of subject" so an unanchored
pattern can be run through the anchored matcher. -/
def restFiller : RItem := .cls (fun _ => true) 0 none true none

/-! ### Calendar arithmetic (for the JS `Date` model) -/

def isLeap (y : Int) : Bool := y % 4 = 0 && (y % 100 ≠ 0 || y % 400 = 0)

def daysInMonth (y m : Int) : Int :=
  if m = 2 then (if isLeap y then 29 else 28)
  else if m = 4 || m = 6 || m = 9 || m = 11 then 30 else 31

/-- Days since 1970-01-01 of a proleptic-Gregorian civil date
(Hinnant's `days_from_civil`, which uses truncating division as Lean's
`Int` division does). -/
def daysFromCivil (y m d : Int) : Int :=
  let y' := if m ≤ 2 then y - 1 else y
  let era := (if 0 ≤ y' then y' else y' - 399) / 400
  let yoe := y' - era * 400
  let mp := (m + 9) % 12
  let doy := (153 * mp + 2) / 5 + d - 1
  let doe := yoe * 365 + yoe / 4 - yoe / 100 + doy
  era * 146097 + doe - 719468

/-- `new Date(s).getTime()` for the strings this engine produces: the ISO
`YYYY-MM-DD` path of the JS date parser (UTC midnight), with the parser's
calendar validity check.  Legacy non-ISO date strings have a time-zone
dependent (or invalid) value in JS and are conservatively modelled as
invalid (`none`). -/
def jsDateMs (s : String) : Option Int :=
  match s.data with
  | [y1, y2, y3, y4, '-', m1, m2, '-', d1, d2] =>
    if jsDigit y1 && jsDigit y2 && jsDigit y3 && jsDigit y4 &&
        jsDigit m1 && jsDigit m2 && jsDigit d1 && jsDigit d2 then
      let y : Int := digitsVal [y1, y2, y3, y4]
      let m : Int := digitsVal [m1, m2]
      let d : Int := digitsVal [d1, d2]
      if 1 ≤ m && m ≤ 12 && 1 ≤ d && d ≤ daysInMonth y m then
        some (daysFromCivil y m d * 86400000)
      else none
    else none
  | _ => none

def jsDateMsO (s : Option String) : Option Int := s.bind jsDateMs

/-! ### The concrete bank-format patterns

These embed the regular expressions of `getDefaultBankFormats` item by item.
A capture slot number corresponds to the regex group number. -/

/-- `(\d{1,2}[\/\-\.]\d{1,2}[\/\-\.]\d{2,4})` captured into slot `n`. -/
def dateTokItems (n : Nat) : List RItem :=
  [.cls jsDigit 1 (some 2) false (some n),
   .cls dateSep 1 (some 1) false (some n),
   .cls jsDigit 1 (some 2) false (some n),
   .cls dateSep 1 (some 1) false (some n),
   .cls jsDigit 2 (some 4) false (some n)]

/-- `(\d{2}\/\d{2}\/\d{4})` captured into slot `n`. -/
def usDateItems (n : Nat) : List RItem :=
  [.cls jsDigit 2 (some 2) false (some n),
   .cls (fun c => c = '/') 1 (some 1) false (some n),
   .cls jsDigit 2 (some 2) false (some n),
   .cls (fun c => c = '/') 1 (some 1) false (some n),
   .cls jsDigit 4 (some 4) false (some n)]

/-- `([\d,]+\.\d{2})` captured into slot `n`. -/
def amtItems (n : Nat) : List RItem :=
  [.cls digitOrComma 1 none false (some n),
   .cls (fun c => c = '.') 1 (some 1) false (some n),
   .cls jsDigit 2 (some 2) false (some n)]

/-- `\s+`. -/
def ws1 : RItem := .cls jsWs 1 none false none

/-- `\s*`. -/
def ws0 : RItem := .cls jsWs 0 none false none

/-- `(.+?)` captured into slot `n`. -/
def descItem (n : Nat) : RItem := .cls jsDot 1 none true (some n)

/-- `(.{40})` captured into slot `n`. -/
def desc40Item (n : Nat) : RItem := .cls jsDot 40 (some 40) false (some n)

/-- `([DC])` captured into slot `n`. -/
def dcItem (n : Nat) : RItem :=
  .cls (fun c => c = 'D' || c = 'C') 1 (some 1) false (some n)

/-- Generic `standard`: `^(date)\s+(.+?)\s+(amt)\s+(amt)\s+(amt)\s*$`. -/
def genericStandardItems : List RItem :=
  dateTokItems 1 ++ [ws1, descItem 2, ws1] ++ amtItems 3 ++ [ws1] ++
    amtItems 4 ++ [ws1] ++ amtItems 5 ++ [ws0]

/-- Generic `simple`: `^(date)\s+(.+?)\s+(amt)\s+(amt)\s*$`. -/
def genericSimpleItems : List RItem :=
  dateTokItems 1 ++ [ws1, descItem 2, ws1] ++ amtItems 3 ++ [ws1] ++
    amtItems 4 ++ [ws0]

/-- Generic `combined`: `^(date)\s+(.+?)\s+(amt)\s+([DC])\s+(amt)\s*$`. -/
def genericCombinedItems : List RItem :=
  dateTokItems 1 ++ [ws1, descItem 2, ws1] ++ amtItems 3 ++
    [ws1, dcItem 4, ws1] ++ amtItems 5 ++ [ws0]

/-- US/PH `standard`: `^(usdate)\s+(.+?)\s+(amt)?\s*(amt)?\s+(amt)\s*$`. -/
def usStandardItems : List RItem :=
  usDateItems 1 ++ [ws1, descItem 2, ws1, .grpOpt (amtItems 3), ws0,
    .grpOpt (amtItems 4), ws1] ++ amtItems 5 ++ [ws0]

/-- PH `bpi`: `^(usdate)\s+(.{40})\s+(amt)?\s*(amt)?\s+(amt)\s*$`. -/
def bpiItems : List RItem :=
  usDateItems 1 ++ [ws1, desc40Item 2, ws1, .grpOpt (amtItems 3), ws0,
    .grpOpt (amtItems 4), ws1] ++ amtItems 5 ++ [ws0]

def genericStandardPat (s : String) : Option MatchGroups :=
  runPattern genericStandardItems 5 s

def genericSimplePat (s : String) : Option MatchGroups :=
  runPattern genericSimpleItems 4 s

def genericCombinedPat (s : String) : Option MatchGroups :=
  runPattern genericCombinedItems 5 s

def usStandardPat (s : String) : Option MatchGroups :=
  runPattern usStandardItems 5 s

def bpiPat (s : String) : Option MatchGroups :=
  runPattern bpiItems 5 s

/-! ### Data model -/

/-- The `Transaction` record of the extractor (constructor defaults).  Fields
that the source initialises to `null` are `Option`s; JS `undefined` never
occurs on these records. -/
structure Transaction where
  transactionId : Option String := none
  date : Option String := none
  valueDate : Option String := none
  description : String := ""
  debit : Option ℚ := none
  credit : Option ℚ := none
  amount : Option ℚ := none
  balance : Option ℚ := none
  transactionType : Option String := none
  reference : Option String := none
  status : String := "POSTED"
  notes : String := ""
  processingStatus : String := "VALID"
  errorMessages : List String := []
  rawLine : String := ""
  lineNumber : Option Nat := none
deriving DecidableEq, Repr

/-- A bank format definition.  `patterns` keeps the declaration order of the
JS object (insertion order, as iterated by `for ... in`). -/
structure BankFormat where
  bankId : String
  bankName : String
  country : String
  patterns : List (String × (String → Option MatchGroups))
  dateFormat : String
  decimalSeparator : String
  thousandsSeparator : String
  amountPosition : String
  balanceIncluded : Bool

/-- `getDefaultBankFormats()[0]`. -/
def genericFormat : BankFormat :=
  { bankId := "generic", bankName := "Generic Format", country := "Universal",
    patterns := [("standard", genericStandardPat), ("simple", genericSimplePat),
                 ("combined", genericCombinedPat)],
    dateFormat := "MM/DD/YYYY", decimalSeparator := ".",
    thousandsSeparator := ",", amountPosition := "separate",
    balanceIncluded := true }

/-- `getDefaultBankFormats()[1]`. -/
def usBankFormat : BankFormat :=
  { bankId := "us_bank", bankName := "US Bank Format", country := "US",
    patterns := [("standard", usStandardPat)],
    dateFormat := "MM/DD/YYYY", decimalSeparator := ".",
    thousandsSeparator := ",", amountPosition := "separate",
    balanceIncluded := true }

/-- `getDefaultBankFormats()[2]`. -/
def phBankFormat : BankFormat :=
  { bankId := "ph_bank", bankName := "Philippine Bank Format", country := "PH",
    patterns := [("standard", usStandardPat), ("bpi", bpiPat)],
    dateFormat := "MM/DD/YYYY", decimalSeparator := ".",
    thousandsSeparator := ",", amountPosition := "separate",
    balanceIncluded := true }

/-- `getDefaultBankFormats()`; also the value of `loadBankFormats()` when no
configuration file is available. -/
def getDefaultBankFormats : List BankFormat :=
  [genericFormat, usBankFormat, phBankFormat]

/-! ### Field normalizers and classifiers (`transaction-extractor.js`) -/

def chAt (l : List Char) (k : Nat) : Option Char := l[k]?

def isDigitAt (l : List Char) (k : Nat) : Bool :=
  match l[k]? with
  | some c => jsDigit c
  | none => false

/-- `^(\d{2})sep(\d{2})sep(\d{4})$` as a positional check, returning the three
groups. -/
def date224 (sep : Char) (l : List Char) : Option (String × String × String) :=
  if l.length = 10 ∧ isDigitAt l 0 ∧ isDigitAt l 1 ∧ chAt l 2 = some sep ∧
      isDigitAt l 3 ∧ isDigitAt l 4 ∧ chAt l 5 = some sep ∧
      isDigitAt l 6 ∧ isDigitAt l 7 ∧ isDigitAt l 8 ∧ isDigitAt l 9 then
    some (⟨l.take 2⟩, ⟨(l.drop 3).take 2⟩, ⟨l.drop 6⟩)
  else none

/-- `^(\d{4})-(\d{2})-(\d{2})$` as a positional check. -/
def date422 (l : List Char) : Option (String × String × String) :=
  if l.length = 10 ∧ isDigitAt l 0 ∧ isDigitAt l 1 ∧ isDigitAt l 2 ∧
      isDigitAt l 3 ∧ chAt l 4 = some '-' ∧ isDigitAt l 5 ∧ isDigitAt l 6 ∧
      chAt l 7 = some '-' ∧ isDigitAt l 8 ∧ isDigitAt l 9 then
    some (⟨l.take 4⟩, ⟨(l.drop 5).take 2⟩, ⟨l.drop 8⟩)
  else none

/-- The `formats` regex list of `normalizeDate`, in source order (the
`MM/DD/YYYY` shape appears twice in the source). -/
def dateShapeList : List (List Char → Option (String × String × String)) :=
  [date224 '/', date224 '/', date224 '-', date224 '.', date422]

def firstDateShape (l : List Char) : Option (String × String × String) :=
  dateShapeList.findSome? fun f => f l

/-- JS `padStart(2, '0')`. -/
def padStart2 (s : String) : String :=
  if 2 ≤ s.length then s else ⟨List.replicate (2 - s.length) '0' ++ s.data⟩

/-- `normalizeDate`: `none` models the JS `null` result (which the source
returns for a falsy argument, including the empty string); a matched shape is
reassembled with the first group in the month position. -/
def normalizeDate (dateStr : Option String) : Option String :=
  match dateStr with
  | none => none
  | some s =>
    if s.isEmpty then none
    else
      match firstDateShape s.data with
      | some (p1, p2, p3) =>
        if p1.length = 4 then some (p1 ++ "-" ++ p2 ++ "-" ++ p3)
        else some (p3 ++ "-" ++ padStart2 p1 ++ "-" ++ padStart2 p2)
      | none => some s

/-- The `[$€£¥₱\s]` class stripped by `parseAmount`. -/
def currencyOrWs (c : Char) : Bool :=
  c = '$' || c = '€' || c = '£' || c = '¥' || c = '₱' || jsWs c

/-- JS `String.prototype.replace(',', '.')` (first occurrence only). -/
def replaceFirstComma : List Char → List Char
  | [] => []
  | c :: r => if c = ',' then '.' :: r else c :: replaceFirstComma r

/-- `parseAmount`: strips currency symbols and whitespace, handles the
format's thousands separator, then parses as a decimal; `none` models both a
JS `null` result and a `NaN` parse. -/
def parseAmount (amountStr : Option String) (format : BankFormat) : Option ℚ :=
  match amountStr with
  | none => none
  | some s =>
    if s.isEmpty then none
    else
      let cleaned := s.data.filter fun c => !currencyOrWs c
      let cleaned :=
        if format.thousandsSeparator = "," then cleaned.filter fun c => c ≠ ','
        else if format.thousandsSeparator = "." then
          replaceFirstComma (cleaned.filter fun c => c ≠ '.')
        else cleaned
      parseFloatQ cleaned

def debitKeywords : List String :=
  ["withdrawal", "payment", "purchase", "fee", "charge", "debit",
   "transfer out", "atm"]

def isDebitTransaction (description : String) : Bool :=
  let lowerDesc := lowerStr description
  debitKeywords.any fun kw => isSubstr kw.data lowerDesc.data

/-- The category table of `categorizeTransaction` in object insertion order. -/
def categoryKeywords : List (String × List String) :=
  [("FEE", ["fee", "charge", "service charge"]),
   ("INTEREST", ["interest", "dividend"]),
   ("TRANSFER", ["transfer", "wire", "ach"]),
   ("ATM", ["atm", "cash withdrawal"]),
   ("PAYMENT", ["payment", "bill pay"]),
   ("DEPOSIT", ["deposit", "credit"]),
   ("PURCHASE", ["purchase", "pos", "card purchase"])]

def categorizeTransaction (description : String) (currentType : Option String) :
    String :=
  let lowerDesc := lowerStr description
  match categoryKeywords.find? (fun ck =>
      ck.2.any fun kw => isSubstr kw.data lowerDesc.data) with
  | some ck => ck.1
  | none =>
    match currentType with
    | some t => if t.isEmpty then "OTHER" else t
    | none => "OTHER"

/-! ### Text cleaning and line classification -/

/-- The first two replacements of `cleanText` (`\r\n` → `\n`, then `\r` →
`\n`), fused into one pass with the same result. -/
def normalizeNewlines : List Char → List Char
  | [] => []
  | '\r' :: '\n' :: rest => '\n' :: normalizeNewlines rest
  | '\r' :: rest => '\n' :: normalizeNewlines rest
  | c :: rest => c :: normalizeNewlines rest

/-- `replace(/\s{2,}/g, ' ')`: every maximal whitespace run of length ≥ 2
(which may include newlines) becomes a single space; single whitespace
characters are kept verbatim. -/
def collapseWs : List Char → List Char
  | [] => []
  | c :: rest =>
    let k := charRunLen jsWs rest
    if jsWs c && 1 ≤ k then ' ' :: collapseWs (rest.drop k)
    else c :: collapseWs rest
termination_by l => l.length
decreasing_by
  all_goals simp only [List.length_cons, List.length_drop]
  all_goals omega

/-- `cleanText`.  After the whitespace collapse no run of two whitespace
characters remains, so the final `/^\s+|\s+$/gm` replacement is exactly a trim
of each newline-separated line. -/
def cleanText (text : String) : String :=
  let t1 := normalizeNewlines text.data
  let t2 := t1.map fun c => if c = '\t' then ' ' else c
  let t3 := collapseWs t2
  String.intercalate "\n" (((⟨t3⟩ : String).splitOn "\n").map trimJs)

def headerKeywords : List String :=
  ["Date", "Description", "Debit", "Credit", "Balance", "Transaction",
   "Amount", "Reference", "Page", "Statement", "Account"]

def isHeaderLine (line : String) : Bool :=
  let lowerLine := lowerStr line
  decide (2 ≤ headerKeywords.countP fun kw =>
    isSubstr (lowerStr kw).data lowerLine.data)

/-! ### Opening/closing balance extraction -/

/-- The characters of a label word, case-insensitively. -/
def ciWordItems (w : String) : List RItem :=
  w.data.map fun ch => .cls (ciChar ch) 1 (some 1) false none

/-- `Word1\s*Word2\s*:?\s*([\d,]+\.\d{2})` with `/i`, as an unanchored
pattern (hence the trailing filler). -/
def labelItems (w1 w2 : String) : List RItem :=
  ciWordItems w1 ++ [ws0] ++ ciWordItems w2 ++
    [ws0, .cls (fun c => c = ':') 0 (some 1) false none, ws0] ++
    amtItems 1 ++ [restFiller]

def searchLabel (w1 w2 : String) (text : String) : Option (List Char) :=
  (searchRI (labelItems w1 w2) text.data).bind fun caps =>
    (caps.find? fun e => e.1 = 1).map fun e => e.2

/-- First label pattern that matches wins; its group is parsed with the commas
removed. -/
def firstBalanceMatch (labels : List (String × String)) (text : String) :
    Option ℚ :=
  match labels with
  | [] => none
  | (w1, w2) :: rest =>
    match searchLabel w1 w2 text with
    | some g1 => parseFloatQ (g1.filter fun c => c ≠ ',')
    | none => firstBalanceMatch rest text

/-- `extractBalances` (opening, closing). -/
def extractBalances (text : String) : Option ℚ × Option ℚ :=
  (firstBalanceMatch
     [("Opening", "Balance"), ("Beginning", "Balance"), ("Previous", "Balance")]
     text,
   firstBalanceMatch
     [("Closing", "Balance"), ("Ending", "Balance"), ("Current", "Balance")]
     text)

/-! ### Transaction line parser -/

/-- Group access `match[i]` (JS `undefined` for a missing or
non-participating group is `none`). -/
def mGet (m : MatchGroups) (i : Nat) : Option String := (m[i - 1]?).join

/-- JS truthiness of a string-or-null value (`null`, `undefined` and `""` are
falsy). -/
def jsTruthyStr : Option String → Bool
  | none => false
  | some s => !s.isEmpty

/-- JS truthiness of a number-or-null value (`null` and `0` are falsy;
`parseAmount` never produces `NaN`-carrying values in this model). -/
def jsTruthyQ : Option ℚ → Bool
  | none => false
  | some q => decide (q ≠ 0)

/-- The `for (const patternName in format.patterns)` loop of
`parseTransactionLine`: first matching pattern wins. -/
def firstPatternMatch (line : String)
    (patterns : List (String × (String → Option MatchGroups))) :
    Option (String × MatchGroups) :=
  match patterns with
  | [] => none
  | (name, p) :: rest =>
    match p line with
    | some m => some (name, m)
    | none => firstPatternMatch line rest

/-- The per-pattern-kind field extraction of `parseTransactionLine` (the
`if (patternName === ...)` chain).  `match[2].trim()` is modelled via
`Option.getD ""` — for the pattern kinds of this code base group 2 always
participates.  A pattern name other than `standard`/`simple`/`combined` sets
no fields (as in the source, where all three branches are skipped). -/
def buildFields (name : String) (m : MatchGroups) (line : String)
    (lineNumber : Nat) (now : Int) (format : BankFormat) : Transaction :=
  let base : Transaction :=
    { rawLine := line, lineNumber := some lineNumber,
      transactionId := some ("txn_" ++ toString lineNumber ++ "_" ++ toString now) }
  if name = "standard" then
    { base with
      date := normalizeDate (mGet m 1),
      description := trimJs ((mGet m 2).getD ""),
      debit := if jsTruthyStr (mGet m 3) then parseAmount (mGet m 3) format else none,
      credit := if jsTruthyStr (mGet m 4) then parseAmount (mGet m 4) format else none,
      balance := if jsTruthyStr (mGet m 5) then parseAmount (mGet m 5) format else none }
  else if name = "simple" then
    { base with
      date := normalizeDate (mGet m 1),
      description := trimJs ((mGet m 2).getD ""),
      debit := if isDebitTransaction ((mGet m 2).getD "") then
        parseAmount (mGet m 3) format else none,
      credit := if isDebitTransaction ((mGet m 2).getD "") then none else
        parseAmount (mGet m 3) format,
      balance := if jsTruthyStr (mGet m 4) then parseAmount (mGet m 4) format else none }
  else if name = "combined" then
    { base with
      date := normalizeDate (mGet m 1),
      description := trimJs ((mGet m 2).getD ""),
      debit := if mGet m 4 = some "D" then parseAmount (mGet m 3) format else none,
      credit := if mGet m 4 = some "D" then none else parseAmount (mGet m 3) format,
      balance := if jsTruthyStr (mGet m 5) then parseAmount (mGet m 5) format else none }
  else base

/-- The net-amount derivation of `parseTransactionLine`
(`if (transaction.debit) ... else if (transaction.credit) ...` with
`-Math.abs`/`Math.abs`). -/
def applyAmount (t : Transaction) : Transaction :=
  if jsTruthyQ t.debit then
    { t with amount := some (-(jsAbs (t.debit.getD 0))), transactionType := some "DEBIT" }
  else if jsTruthyQ t.credit then
    { t with amount := some (jsAbs (t.credit.getD 0)), transactionType := some "CREDIT" }
  else t

/-- The body of `parseTransactionLine` run on a successful match: field
extraction, net-amount derivation, categorization. -/
def buildTransaction (name : String) (m : MatchGroups) (line : String)
    (lineNumber : Nat) (now : Int) (format : BankFormat) : Transaction :=
  let t2 := applyAmount (buildFields name m line lineNumber now format)
  { t2 with
    transactionType := some (categorizeTransaction t2.description t2.transactionType) }

/-- `parseTransactionLine`. -/
def parseTransactionLine (line : String) (format : BankFormat)
    (lineNumber : Nat) (now : Int) : Option Transaction :=
  (firstPatternMatch line format.patterns).map fun nm =>
    buildTransaction nm.1 nm.2 line lineNumber now format

/-! ### Validator module (`validator.js`)

Configuration uses the environment defaults of the source:
`MAX_FUTURE_DAYS = 7`, `BALANCE_TOLERANCE = 0.02`; `allowFuture = false` and
`allowOld = true` are the option defaults, used by every call site of this
code base (so the dead `DATE_TOO_OLD` branch is not modelled).  Finding
timestamps (`new Date().toISOString()`) are not modelled; no claim mentions
them. -/

/-- A validation finding.  `context` is a JS object whose keys vary per call
site; the fields referenced by claims (`transactionIndex`, `duplicateOf`,
`expectedBalance`, `actualBalance`, `difference`) are modelled. -/
structure VFinding where
  code : String
  message : String
  severity : Option String := none
  ctxIndex : Option Nat := none
  ctxDuplicateOf : Option Nat := none
  ctxExpected : Option ℚ := none
  ctxActual : Option ℚ := none
  ctxDifference : Option ℚ := none
deriving DecidableEq, Repr

def mkFinding (code msg sev : String) : VFinding :=
  { code := code, message := msg, severity := some sev }

structure ValidationResult where
  valid : Bool := true
  errors : List VFinding := []
  warnings : List VFinding := []
deriving DecidableEq, Repr

def addError (r : ValidationResult) (f : VFinding) : ValidationResult :=
  { r with valid := false, errors := r.errors ++ [f] }

def addWarning (r : ValidationResult) (f : VFinding) : ValidationResult :=
  { r with warnings := r.warnings ++ [f] }

def hasErrors (r : ValidationResult) : Bool := !r.errors.isEmpty

def MAX_FUTURE_DAYS : Int := 7

def BALANCE_TOLERANCE : ℚ := 2 / 100

/-- Return value of `validateDate`. -/
structure DateValidation where
  valid : Bool
  date : Option Int
  error : ValidationResult
deriving DecidableEq, Repr

def dateRequiredFinding : VFinding :=
  mkFinding "INVALID_DATE_FORMAT" "Date is required and must be a string" "HIGH"

/-- `validateDate(dateStr)` with the default options.  A JS `null` date and
the (falsy) empty string take the required-field branch. -/
def validateDate (dateStr : Option String) (now : Int) : DateValidation :=
  match dateStr with
  | none => { valid := false, date := none, error := addError {} dateRequiredFinding }
  | some s =>
    if s.isEmpty then
      { valid := false, date := none, error := addError {} dateRequiredFinding }
    else
      match jsDateMs s with
      | none =>
        { valid := false, date := none,
          error := addError {}
            (mkFinding "INVALID_DATE_FORMAT" ("Invalid date format: " ++ s) "HIGH") }
      | some ms =>
        let r : ValidationResult := {}
        let r :=
          if now + MAX_FUTURE_DAYS * 86400000 < ms then
            addError r (mkFinding "FUTURE_DATE" ("Date is in the future: " ++ s) "HIGH")
          else r
        { valid := !hasErrors r, date := some ms, error := r }

/-- `validateDescription`. -/
def validateDescription (description : String) : ValidationResult :=
  if description.isEmpty then
    addError {} (mkFinding "INVALID_DESCRIPTION" "Description is required" "MEDIUM")
  else
    let trimmed := trimJs description
    let r : ValidationResult := {}
    let r :=
      if trimmed.length < 3 then
        addWarning r (mkFinding "INVALID_DESCRIPTION"
          "Description is too short (minimum 3 characters)" "LOW")
      else r
    let r :=
      if 500 < trimmed.length then
        addWarning r (mkFinding "INVALID_DESCRIPTION"
          "Description is very long (>500 characters)" "LOW")
      else r
    let r :=
      if trimmed.data.any (fun c => c = '<' || c = '>' || c = '\x7b' || c = '\x7d') then
        addWarning r (mkFinding "INVALID_DESCRIPTION"
          "Description contains potentially unsafe characters" "MEDIUM")
      else r
    r

/-- The fields of this code base's transaction records are always present
(absent values are `null`, never `undefined`), so the `!== undefined` guards
of `validateBalanceConsistency` are constitutively true. -/
def isUndefQ : Option ℚ → Bool := fun _ => false

/-- JS `ToNumber` coercion of a number-or-null value (`null` coerces to 0), as
performed by `+` and `-` on these fields. -/
def toNum (q : Option ℚ) : ℚ := q.getD 0

def balanceMismatchFinding (i : Nat) (expected : ℚ) (actual : Option ℚ)
    (diff : ℚ) : VFinding :=
  { code := "BALANCE_MISMATCH",
    message := "Balance mismatch at transaction " ++ toString i,
    severity := some "MEDIUM", ctxIndex := some i,
    ctxExpected := some expected, ctxActual := actual,
    ctxDifference := some diff }

/-- The `for (let i = 1; ...)` loop of `validateBalanceConsistency`.  When a
mismatch fires with a `null` current balance, the source throws a `TypeError`
(`actualBalance.toFixed(2)` on `null`), modelled as `Except.error`. -/
def balancePairs : List Transaction → Nat → ValidationResult →
    Except Unit ValidationResult
  | [], _, r => .ok r
  | [_], _, r => .ok r
  | prev :: curr :: rest, i, r =>
    if !isUndefQ prev.balance && !isUndefQ curr.balance && !isUndefQ curr.amount then
      let expected := toNum prev.balance + toNum curr.amount
      let diff := jsAbs (expected - toNum curr.balance)
      if BALANCE_TOLERANCE < diff then
        match curr.balance with
        | none => .error ()
        | some actual =>
          balancePairs (curr :: rest) (i + 1)
            (addWarning r (balanceMismatchFinding i expected (some actual) diff))
      else balancePairs (curr :: rest) (i + 1) r
    else balancePairs (curr :: rest) (i + 1) r

/-- `validateBalanceConsistency`. -/
def validateBalanceConsistency (txs : List Transaction) :
    Except Unit ValidationResult :=
  if txs.isEmpty then .ok {} else balancePairs txs 1 {}

/-! ### Duplicate detection (`detectDuplicates`) -/

def digitChar10 (k : Nat) : Char :=
  match k with
  | 0 => '0' | 1 => '1' | 2 => '2' | 3 => '3' | 4 => '4'
  | 5 => '5' | 6 => '6' | 7 => '7' | 8 => '8' | 9 => '9'
  | _ => '?'

/-- Decimal digit list of a natural number (most significant first). -/
def natDigits (n : Nat) : List Char :=
  if n < 10 then [digitChar10 n]
  else natDigits (n / 10) ++ [digitChar10 (n % 10)]
termination_by n
decreasing_by
  exact Nat.div_lt_self (by omega) (by omega)

def intChars : Int → List Char
  | .ofNat m => natDigits m
  | .negSucc m => '-' :: natDigits (m + 1)

/-- An injective rendering of a number-or-null value standing in for the JS
template interpolation `${amount}` (JS number-to-string is injective on
numbers and yields `"null"` for `null`; the rendering below never contains an
underscore, like the JS rendering of the numeric amounts of this engine). -/
def amtKeyStr : Option ℚ → String
  | none => "null"
  | some q => ⟨intChars q.num ++ ':' :: natDigits q.den⟩

/-- `${date}` of a date-or-null value. -/
def dateKeyStr : Option String → String
  | none => "null"
  | some s => s

/-- The duplicate key `` `${transaction.date}_${transaction.amount}_${transaction.description}` ``. -/
def txnKey (t : Transaction) : String :=
  dateKeyStr t.date ++ "_" ++ amtKeyStr t.amount ++ "_" ++ t.description

def dupFinding (i : Nat) (firstIdx : Nat) : VFinding :=
  { code := "DUPLICATE_TRANSACTION",
    message := "Potential duplicate transaction at index " ++ toString i,
    severity := some "MEDIUM", ctxIndex := some i,
    ctxDuplicateOf := some firstIdx }

/-- The `forEach` of `detectDuplicates` with its `seen` map (first occurrence
index per key). -/
def dupLoop : List Transaction → Nat → List (String × Nat) → List VFinding
  | [], _, _ => []
  | t :: rest, i, seen =>
    match seen.find? (fun e => e.1 = txnKey t) with
    | some e => dupFinding i e.2 :: dupLoop rest (i + 1) seen
    | none => dupLoop rest (i + 1) ((txnKey t, i) :: seen)

/-- `detectDuplicates` (the result's `errors` list is always empty and `valid`
stays true). -/
def detectDuplicates (txs : List Transaction) : ValidationResult :=
  { valid := true, errors := [], warnings := dupLoop txs 0 [] }

/-! ### Extractor-side validation, post-processing and orchestration -/

/-- Return value of the extractor's local `validateTransaction`. -/
structure TxValidation where
  valid : Bool
  errors : List VFinding
  warnings : List VFinding
deriving DecidableEq, Repr

def missingAmountFinding : VFinding :=
  { code := "MISSING_AMOUNT",
    message := "Transaction must have debit or credit amount" }

/-- The extractor's local `validateTransaction` (renamed to avoid clashing
with the validator module's function of the same name): date errors are
blocking, a falsy debit together with a falsy credit is blocking, and the
*errors* of `validateDescription` are recorded as warnings (its warnings are
dropped — the source only pushes `descValidation.errors`). -/
def validateTransactionX (t : Transaction) (now : Int) : TxValidation :=
  let dv := validateDate t.date now
  let errs1 := if !dv.valid then dv.error.errors else []
  let missing := !jsTruthyQ t.debit && !jsTruthyQ t.credit
  let errs2 := if missing then [missingAmountFinding] else []
  let descV := validateDescription t.description
  let warns := if hasErrors descV then descV.errors else []
  { valid := dv.valid && !missing, errors := errs1 ++ errs2, warnings := warns }

/-- Sort key of the comparator `new Date(a.date) - new Date(b.date)`.  A date
that does not parse yields `NaN`, which ECMAScript's `SortCompare` treats as
`+0`; it is modelled by the default key 0. -/
def dateKeyD (t : Transaction) : Int := (jsDateMsO t.date).getD 0

/-- `transactions.sort(...)`: `Array.prototype.sort` is stable, and a stable
sort by a fixed key has a unique result, modelled by insertion sort. -/
def sortByDate (txs : List Transaction) : List Transaction :=
  txs.insertionSort fun a b => dateKeyD a ≤ dateKeyD b

/-- The running-balance back-fill of `postProcessTransactions`
(`runningBalance += transaction.amount || 0`). -/
def backfillBalances : List Transaction → ℚ → List Transaction
  | [], _ => []
  | t :: ts, run =>
    let run' := run + toNum t.amount
    { t with balance := some run', notes := t.notes ++ " (Balance calculated)" } ::
      backfillBalances ts run'

/-- `postProcessTransactions` (its second argument in the source is the
result object, of which only `openingBalance` is read). -/
def postProcessTransactions (txs : List Transaction) (openingBalance : Option ℚ) :
    List Transaction :=
  if txs.isEmpty then txs
  else
    let sorted := sortByDate txs
    let hasBalance := sorted.any fun t => t.balance.isSome
    if !hasBalance && openingBalance.isSome then
      backfillBalances sorted (openingBalance.getD 0)
    else sorted

/-- An element of `result.errors` / `result.warnings`.  The source pushes
heterogeneous plain objects; the per-line entries also alias the (mutated)
transaction object, which no claim reads and which is omitted here. -/
structure ResultErrorEntry where
  code : Option String := none
  message : Option String := none
  line : Option Nat := none
  errors : List VFinding := []
deriving DecidableEq, Repr

structure ExtractionMetadata where
  linesProcessed : Nat
  bankFormatName : String
  extractedAtMs : Int
deriving DecidableEq, Repr

/-- The `ExtractionResult` record (constructor defaults). -/
structure ExtractionResult where
  success : Bool := false
  transactions : List Transaction := []
  bankFormat : Option BankFormat := none
  totalTransactions : Nat := 0
  validTransactions : Nat := 0
  invalidTransactions : Nat := 0
  openingBalance : Option ℚ := none
  closingBalance : Option ℚ := none
  totalDebits : ℚ := 0
  totalCredits : ℚ := 0
  errors : List ResultErrorEntry := []
  warnings : List ResultErrorEntry := []
  metadata : Option ExtractionMetadata := none

structure ExtractionOptions where
  bankFormat : Option BankFormat := none

/-- Accumulated state of the per-line loop of `extractTransactions`. -/
structure LoopOut where
  txs : List Transaction := []
  validC : Nat := 0
  invalidC : Nat := 0
  errs : List ResultErrorEntry := []

/-- The per-line loop of `extractTransactions`: skip blank and header lines,
parse, validate, set `processingStatus`/`errorMessages`, count, and collect
per-line error entries. -/
def processLines (fmt : BankFormat) (now : Int) : List String → Nat → LoopOut
  | [], _ => {}
  | line :: rest, n =>
    let tail := processLines fmt now rest (n + 1)
    if (trimJs line).isEmpty || isHeaderLine line then tail
    else
      match parseTransactionLine line fmt n now with
      | none => tail
      | some txn =>
        let v := validateTransactionX txn now
        if v.valid then
          { tail with
            txs := { txn with processingStatus := "VALID" } :: tail.txs,
            validC := tail.validC + 1 }
        else
          let txn' := { txn with
            processingStatus := if !v.warnings.isEmpty then "WARNING" else "ERROR",
            errorMessages := v.errors.map fun e => e.message }
          { txs := txn' :: tail.txs, validC := tail.validC,
            invalidC := tail.invalidC + 1,
            errs := (if !v.errors.isEmpty then
                ([{ line := some n, errors := v.errors }] : List ResultErrorEntry)
              else []) ++ tail.errs }

/-- Total pattern-match count of one format over the scanned lines (the
`matchCount` accumulation of `detectBankFormat`: every `(line, pattern)` pair
with `pattern.test(line)` true counts one). -/
def formatScore (f : BankFormat) (lines : List String) : Nat :=
  (lines.map fun l => f.patterns.countP fun p => (p.2 l).isSome).sum

/-- The fallback `formats.find(f => f.bankId === 'generic') || formats[0]`
of `detectBankFormat`. -/
def genericFallback (all : List BankFormat) : Option BankFormat :=
  match all.find? (fun f => f.bankId = "generic") with
  | some f => some f
  | none => all.head?

/-- The loop `for (const format of formats)` of `detectBankFormat`. -/
def detectLoop (lines : List String) (all : List BankFormat) :
    List BankFormat → Option BankFormat
  | [] => genericFallback all
  | f :: rest =>
    if 3 ≤ formatScore f lines then some f else detectLoop lines all rest

/-- `detectBankFormat`: scans the first 50 lines of the raw text. -/
def detectBankFormat (text : String) (formats : List BankFormat) :
    Option BankFormat :=
  detectLoop ((text.splitOn "\n").take 50) formats formats

def unknownFormatEntry : ResultErrorEntry :=
  { code := some "UNKNOWN_FORMAT", message := some "Could not detect bank format" }

/-- The `catch` block entry (its `details` field carries the thrown exception
message, which is not modelled). -/
def extractionFailedEntry : ResultErrorEntry :=
  { code := some "EXTRACTION_FAILED", message := some "Failed to extract transactions" }

/-- The `try` body of `extractTransactions`.  A thrown exception is modelled
as `Except.error` carrying the result object as mutated so far; the modelled
throw sites are the dereferences of a `null`/`undefined` `options`
(`options.bankFormat`) and of a `null` `text` (`text.split` inside
`detectBankFormat`, or `cleanText(text)` when a format was supplied).
`loadBankFormats()` is modelled by the `formats` parameter (its value is
`getDefaultBankFormats` when no configuration file is available). -/
def extractBody (text : Option String) (options : Option ExtractionOptions)
    (formats : List BankFormat) (now : Int) :
    Except ExtractionResult ExtractionResult :=
  let r0 : ExtractionResult := {}
  match options with
  | none => .error r0
  | some opts =>
    let detectedE : Except ExtractionResult (Option BankFormat) :=
      match opts.bankFormat with
      | some f => .ok (some f)
      | none =>
        match text with
        | none => .error r0
        | some t => .ok (detectBankFormat t formats)
    match detectedE with
    | .error r => .error r
    | .ok detected =>
      let r1 := { r0 with bankFormat := detected }
      match detected with
      | none => .ok { r1 with errors := r1.errors ++ [unknownFormatEntry] }
      | some fmt =>
        match text with
        | none => .error r1
        | some t =>
          let lines := (cleanText t).splitOn "\n"
          let bals := extractBalances t
          let r2 := { r1 with openingBalance := bals.1, closingBalance := bals.2 }
          let lp := processLines fmt now lines 1
          let finalTxs := postProcessTransactions lp.txs r2.openingBalance
          let totalDebits := finalTxs.foldl
            (fun acc u => if jsTruthyQ u.debit then acc + u.debit.getD 0 else acc) 0
          let totalCredits := finalTxs.foldl
            (fun acc u => if jsTruthyQ u.credit then acc + u.credit.getD 0 else acc) 0
          .ok { r2 with
            transactions := finalTxs,
            totalTransactions := finalTxs.length,
            success := decide (0 < finalTxs.length),
            validTransactions := lp.validC,
            invalidTransactions := lp.invalidC,
            errors := r2.errors ++ lp.errs,
            totalDebits := totalDebits,
            totalCredits := totalCredits,
            metadata := some { linesProcessed := lines.length,
                               bankFormatName := fmt.bankName,
                               extractedAtMs := now } }

/-- `extractTransactions`: the `try`/`catch` wrapper — a total function; a
throw inside the body yields the partially-built result with
`success = false` and an `EXTRACTION_FAILED` entry appended. -/
def extractTransactions (text : Option String) (options : Option ExtractionOptions)
    (formats : List BankFormat) (now : Int) : ExtractionResult :=
  match extractBody text options formats now with
  | .ok r => r
  | .error r => { r with success := false, errors := r.errors ++ [extractionFailedEntry] }

/-! ## Specification-side definitions

These definitions transcribe the *spec's words* (not the source) and are used
to state refinement-style claims against the embedded code. -/

/-- Spec shape for the three two-digit-group date formats (`MM/DD/YYYY`,
`DD.MM.YYYY`, `MM-DD-YYYY`): two two-digit groups and a four-digit year
joined by one separator character (from `/`, `-`, `.`) used twice.  Returns
the two groups, the year, and the separator. -/
def specTwoTwoFour (s : String) : Option (String × String × String × Char) :=
  match chAt s.data 2 with
  | none => none
  | some sep =>
    if (sep = '/' ∨ sep = '-' ∨ sep = '.') ∧ s.data.length = 10 ∧
        isDigitAt s.data 0 ∧ isDigitAt s.data 1 ∧ isDigitAt s.data 3 ∧
        isDigitAt s.data 4 ∧ chAt s.data 5 = some sep ∧ isDigitAt s.data 6 ∧
        isDigitAt s.data 7 ∧ isDigitAt s.data 8 ∧ isDigitAt s.data 9 then
      some (⟨s.data.take 2⟩, ⟨(s.data.drop 3).take 2⟩, ⟨s.data.drop 6⟩, sep)
    else none

/-- Spec shape for canonical `YYYY-MM-DD` (also the claim's notion of a
string "in canonical YYYY-MM-DD form"). -/
def isYMDShape (s : String) : Bool :=
  decide (s.data.length = 10 ∧ isDigitAt s.data 0 ∧ isDigitAt s.data 1 ∧
    isDigitAt s.data 2 ∧ isDigitAt s.data 3 ∧ chAt s.data 4 = some '-' ∧
    isDigitAt s.data 5 ∧ isDigitAt s.data 6 ∧ chAt s.data 7 = some '-' ∧
    isDigitAt s.data 8 ∧ isDigitAt s.data 9)

/-! ## Helper lemmas -/

theorem len10_explicit (l : List Char) (h : l.length = 10) :
    ∃ a b c d e f g h' i j, l = [a, b, c, d, e, f, g, h', i, j] := by
  rcases l with _ | ⟨a, _ | ⟨b, _ | ⟨c, _ | ⟨d, _ | ⟨e, _ | ⟨f, _ | ⟨g, _ |
    ⟨h', _ | ⟨i, _ | ⟨j, _ | ⟨k, t⟩⟩⟩⟩⟩⟩⟩⟩⟩⟩⟩ <;>
    first
      | exact ⟨a, b, c, d, e, f, g, h', i, j, rfl⟩
      | simp_all

theorem jsDigit_not_sep {c : Char} (h : jsDigit c = true) :
    c ≠ '/' ∧ c ≠ '-' ∧ c ≠ '.' := by
  refine ⟨?_, ?_, ?_⟩ <;> rintro rfl <;> simp [jsDigit] at h

theorem isEmpty_mk_cons (c : Char) (l : List Char) :
    (⟨c :: l⟩ : String).isEmpty = false := by
  rw [Bool.eq_false_iff]
  intro h
  have := (String.isEmpty_iff _).mp h
  simp [String.ext_iff] at this

theorem isEmpty_false_of_ne {s : String} (h : ¬ s = "") : s.isEmpty = false := by
  rw [Bool.eq_false_iff]
  intro hh
  exact h ((String.isEmpty_iff _).mp hh)

theorem firstDateShape_224 (a b s1 c d s2 e f g h : Char)
    (hd : (jsDigit a && jsDigit b && jsDigit c && jsDigit d &&
         jsDigit e && jsDigit f && jsDigit g && jsDigit h) = true)
    (hs : s1 = '/' ∨ s1 = '-' ∨ s1 = '.') (hs2 : s2 = s1) :
    firstDateShape [a, b, s1, c, d, s2, e, f, g, h] =
      some (⟨[a, b]⟩, ⟨[c, d]⟩, ⟨[e, f, g, h]⟩) := by
  subst hs2
  simp only [Bool.and_eq_true] at hd
  obtain ⟨⟨⟨⟨⟨⟨⟨ha, hb⟩, hc⟩, hd'⟩, he⟩, hf⟩, hg⟩, hh⟩ := hd
  rcases hs with rfl | rfl | rfl <;>
    simp [firstDateShape, dateShapeList, date224, date422, isDigitAt, chAt,
      ha, hb, hc, hd', he, hf, hg, hh]

theorem firstDateShape_422 (a b c d e f g h : Char)
    (hd : (jsDigit a && jsDigit b && jsDigit c && jsDigit d &&
         jsDigit e && jsDigit f && jsDigit g && jsDigit h) = true) :
    firstDateShape [a, b, c, d, '-', e, f, '-', g, h] =
      some (⟨[a, b, c, d]⟩, ⟨[e, f]⟩, ⟨[g, h]⟩) := by
  simp only [Bool.and_eq_true] at hd
  obtain ⟨⟨⟨⟨⟨⟨⟨ha, hb⟩, hc⟩, hd'⟩, he⟩, hf⟩, hg⟩, hh⟩ := hd
  have h2 := jsDigit_not_sep hc
  simp [firstDateShape, dateShapeList, date224, date422, isDigitAt, chAt,
    ha, hb, hc, hd', he, hf, hg, hh, h2.1, h2.2.1, h2.2.2]

theorem specTwoTwoFour_inv {s : String} {g1 g2 y : String} {sep : Char}
    (h : specTwoTwoFour s = some (g1, g2, y, sep)) :
    ∃ a b c d e f g h', s.data = [a, b, sep, c, d, sep, e, f, g, h'] ∧
      g1 = ⟨[a, b]⟩ ∧ g2 = ⟨[c, d]⟩ ∧ y = ⟨[e, f, g, h']⟩ ∧
      (sep = '/' ∨ sep = '-' ∨ sep = '.') ∧
      (jsDigit a && jsDigit b && jsDigit c && jsDigit d &&
       jsDigit e && jsDigit f && jsDigit g && jsDigit h') = true := by
  rcases s with ⟨l⟩
  unfold specTwoTwoFour at h
  split at h
  case h_1 => simp at h
  case h_2 sep' heq =>
    split at h
    case isFalse => simp at h
    case isTrue hg =>
      obtain ⟨hsep, hlen, h0, h1, h3, h4, h5, h6, h7, h8, h9⟩ := hg
      simp only [String.data] at hlen heq h0 h1 h3 h4 h5 h6 h7 h8 h9 h ⊢
      obtain ⟨a, b, s1, c, d, s2, e, f, g, h10, rfl⟩ := len10_explicit l hlen
      simp only [chAt, isDigitAt, List.getElem?_cons_zero, List.getElem?_cons_succ,
        Option.some.injEq] at heq h0 h1 h3 h4 h5 h6 h7 h8 h9
      simp only [Option.some.injEq, Prod.mk.injEq] at h
      obtain ⟨hg1, hg2, hy, hsep'⟩ := h
      subst hsep' heq h5
      exact ⟨a, b, c, d, e, f, g, h10, by simp, by simpa using hg1.symm,
        by simpa using hg2.symm, by simpa using hy.symm, hsep,
        by simp [h0, h1, h3, h4, h6, h7, h8, h9]⟩

theorem isYMDShape_inv {s : String} (h : isYMDShape s = true) :
    ∃ a b c d e f g h', s.data = [a, b, c, d, '-', e, f, '-', g, h'] ∧
      (jsDigit a && jsDigit b && jsDigit c && jsDigit d &&
       jsDigit e && jsDigit f && jsDigit g && jsDigit h') = true := by
  rcases s with ⟨l⟩
  unfold isYMDShape at h
  simp only [decide_eq_true_eq, String.data] at h
  obtain ⟨hlen, h0, h1, h2, h3, h4, h5, h6, h7, h8, h9⟩ := h
  obtain ⟨a, b, s1, c, d, s2, e, f, g, h10, rfl⟩ := len10_explicit l hlen
  simp only [chAt, isDigitAt, List.getElem?_cons_zero, List.getElem?_cons_succ,
    Option.some.injEq] at h0 h1 h2 h3 h4 h5 h6 h7 h8 h9
  subst h4 h7
  exact ⟨a, b, s1, c, s2, e, g, h10,
    by simp, by simp [h0, h1, h2, h3, h5, h6, h8, h9]⟩

theorem date224_eq_some {sep : Char} {l : List Char} {r : String × String × String}
    (hsep : sep = '/' ∨ sep = '-' ∨ sep = '.')
    (h : date224 sep l = some r) : specTwoTwoFour ⟨l⟩ ≠ none := by
  unfold date224 at h
  split at h
  case isTrue hg =>
    obtain ⟨hlen, h0, h1, hch2, h3, h4, hch5, h6, h7, h8, h9⟩ := hg
    unfold specTwoTwoFour
    simp only [String.data]
    rw [hch2]
    simp [hsep, hlen, h0, h1, h3, h4, hch5, h6, h7, h8, h9]
  case isFalse => simp at h

theorem date422_eq_some {l : List Char} {r : String × String × String}
    (h : date422 l = some r) : isYMDShape ⟨l⟩ = true := by
  unfold date422 at h
  split at h
  case isTrue hg =>
    obtain ⟨hlen, h0, h1, h2, h3, hch4, h5, h6, hch7, h8, h9⟩ := hg
    unfold isYMDShape
    simp [hlen, h0, h1, h2, h3, hch4, h5, h6, hch7, h8, h9]
  case isFalse => simp at h

theorem firstDateShape_none (l : List Char)
    (h1 : specTwoTwoFour ⟨l⟩ = none) (h2 : isYMDShape ⟨l⟩ = false) :
    firstDateShape l = none := by
  have k1 : ∀ sep, sep = '/' ∨ sep = '-' ∨ sep = '.' → date224 sep l = none := by
    intro sep hsep
    cases hm : date224 sep l with
    | none => rfl
    | some r => exact absurd h1 (date224_eq_some hsep hm)
  have k2 : date422 l = none := by
    cases hm : date422 l with
    | none => rfl
    | some r => rw [date422_eq_some hm] at h2; exact absurd h2 (by simp)
  simp [firstDateShape, dateShapeList, List.findSome?,
    k1 '/' (by simp), k1 '-' (by simp), k1 '.' (by simp), k2]

/-! ## Claim C6 — `normalizeDate` -/

/-- C6 (counterexample): the claim "for every string matching none of these
shapes it returns the input unchanged" fails at the empty string: `""` matches
none of the four shapes, yet `normalizeDate` returns JS `null` (`none`), not
the unchanged input `""` — `!dateStr` is true for the empty string. -/
theorem c6_counterexample :
    specTwoTwoFour "" = none ∧ isYMDShape "" = false ∧
      normalizeDate (some "") = none ∧
      normalizeDate (some "") ≠ some "" := by
  refine ⟨by decide, by decide, by decide, by decide⟩

/-- C6 (amended): `normalizeDate` is total; on a string of one of the three
two-digit-group shapes (`MM/DD/YYYY`, `DD.MM.YYYY`, `MM-DD-YYYY`) it emits
`YYYY-g1-g2` — the *first* group is placed in the month position — which is in
canonical `YYYY-MM-DD` shape; an already-canonical `YYYY-MM-DD` string is
returned unchanged (hence in canonical shape); every *non-empty* string
matching none of the shapes passes through unchanged; the empty string and a
null input yield null (the single deviation from the claim as stated). -/
theorem c6_normalizeDate_amended (s : String) :
    (∀ g1 g2 y sep, specTwoTwoFour s = some (g1, g2, y, sep) →
        normalizeDate (some s) = some (y ++ "-" ++ g1 ++ "-" ++ g2) ∧
        isYMDShape (y ++ "-" ++ g1 ++ "-" ++ g2) = true) ∧
    (isYMDShape s = true → normalizeDate (some s) = some s) ∧
    (specTwoTwoFour s = none → isYMDShape s = false → s ≠ "" →
        normalizeDate (some s) = some s) ∧
    normalizeDate (some "") = none ∧ normalizeDate (none : Option String) = none := by
  refine ⟨?_, ?_, ?_, by decide, rfl⟩
  · intro g1 g2 y sep h
    obtain ⟨a, b, c, d, e, f, g, h10, hdata, hg1, hg2, hy, hsep, hdig⟩ :=
      specTwoTwoFour_inv h
    rcases s with ⟨l⟩
    simp only [String.data] at hdata
    subst hdata hg1 hg2 hy
    constructor
    · simp only [normalizeDate, isEmpty_mk_cons, Bool.false_eq_true, if_false,
        firstDateShape_224 a b sep c d sep e f g h10 hdig hsep rfl]
      have hlen2 : ¬ ((⟨[a, b]⟩ : String).length = 4) := by
        simp [String.length_mk]
      rw [if_neg hlen2]
      have p1 : padStart2 ⟨[a, b]⟩ = ⟨[a, b]⟩ := by
        unfold padStart2
        rw [if_pos (by simp [String.length_mk])]
      have p2 : padStart2 ⟨[c, d]⟩ = ⟨[c, d]⟩ := by
        unfold padStart2
        rw [if_pos (by simp [String.length_mk])]
      rw [p1, p2]
    · simp only [Bool.and_eq_true] at hdig
      obtain ⟨⟨⟨⟨⟨⟨⟨ha, hb⟩, hc⟩, hd'⟩, he⟩, hf⟩, hg'⟩, hh⟩ := hdig
      have hdat : ((⟨[e, f, g, h10]⟩ : String) ++ "-" ++ ⟨[a, b]⟩ ++ "-" ++ ⟨[c, d]⟩).data
          = [e, f, g, h10, '-', a, b, '-', c, d] := by
        simp only [String.data_append]
        rfl
      unfold isYMDShape
      rw [hdat]
      simp [isDigitAt, chAt, ha, hb, hc, hd', he, hf, hg', hh]
  · intro h
    obtain ⟨a, b, c, d, e, f, g, h10, hdata, hdig⟩ := isYMDShape_inv h
    rcases s with ⟨l⟩
    simp only [String.data] at hdata
    subst hdata
    simp only [normalizeDate, isEmpty_mk_cons, Bool.false_eq_true, if_false,
      firstDateShape_422 a b c d e f g h10 hdig]
    have hlen4 : ((⟨[a, b, c, d]⟩ : String).length = 4) := by
      simp [String.length_mk]
    rw [if_pos hlen4]
    rfl
  · intro h1 h2 hne
    rcases s with ⟨l⟩
    simp only [normalizeDate, isEmpty_false_of_ne hne, Bool.false_eq_true,
      if_false, firstDateShape_none l h1 h2]

/-- C6 (witness): the amended theorem applied at concrete inputs — a
slash-shaped date, a dot-shaped date, a canonical date, and a non-matching
non-empty string. -/
theorem c6_witness :
    normalizeDate (some "01/15/2024") = some "2024-01-15" ∧
      normalizeDate (some "15.01.2024") = some "2024-15-01" ∧
      normalizeDate (some "2024-01-15") = some "2024-01-15" ∧
      normalizeDate (some "1/5/2024") = some "1/5/2024" := by
  refine ⟨?_, ?_, ?_, ?_⟩
  · exact ((c6_normalizeDate_amended "01/15/2024").1 "01" "15" "2024" '/'
      (by decide)).1
  · exact ((c6_normalizeDate_amended "15.01.2024").1 "15" "01" "2024" '.'
      (by decide)).1
  · exact (c6_normalizeDate_amended "2024-01-15").2.1 (by decide)
  · exact (c6_normalizeDate_amended "1/5/2024").2.2.1 (by decide) (by decide)
      (by decide)

/-! ## Claim C3 — `validateBalanceConsistency` -/

/-- First transaction of the C3 failing input: it carries *no* balance. -/
def c3Prev : Transaction :=
  { date := some "2024-01-01", description := "opening txn",
    amount := some (-5), balance := none }

/-- Second transaction of the C3 failing input: balance `100`, amount `5`. -/
def c3Curr : Transaction :=
  { date := some "2024-01-02", description := "second txn",
    amount := some 5, balance := some 100 }

/-- C3 (code bug, evaluation at the failing input): although the first
transaction of the pair carries no balance — so by the claim (and spec §4.7)
the pair is not subject to the consistency check — `validateBalanceConsistency`
emits a MEDIUM `BALANCE_MISMATCH` warning for it: the `!== undefined` guard
never fires for this code base's null-initialised records and the null balance
is coerced to 0, giving `expected = 0 + 5 = 5` against `actual = 100`. -/
theorem c3_code_evaluation :
    c3Prev.balance = none ∧
      (validateBalanceConsistency [c3Prev, c3Curr]).toOption =
        some { valid := true, errors := [],
               warnings := [{ code := "BALANCE_MISMATCH",
                              message := "Balance mismatch at transaction 1",
                              severity := some "MEDIUM", ctxIndex := some 1,
                              ctxExpected := some 5, ctxActual := some 100,
                              ctxDifference := some 95 }] } :=
  ⟨rfl, by with_unfolding_all rfl⟩

end Morphy

/-! ## Claim C4 — `detectDuplicates` -/

namespace Morphy

def isKeyDigit (c : Char) : Bool :=
  c = '0' || c = '1' || c = '2' || c = '3' || c = '4' ||
  c = '5' || c = '6' || c = '7' || c = '8' || c = '9'

theorem digitChar10_key {k : Nat} (h : k < 10) : isKeyDigit (digitChar10 k) = true := by
  interval_cases k <;> decide

theorem digitChar10_val {k : Nat} (h : k < 10) :
    (digitChar10 k).toNat - '0'.toNat = k := by
  interval_cases k <;> decide

theorem natDigits_key {n : Nat} : ∀ c ∈ natDigits n, isKeyDigit c = true := by
  induction n using Nat.strong_induction_on with
  | _ n ih =>
    intro c hc
    unfold natDigits at hc
    split at hc
    case isTrue h => simp at hc; subst hc; exact digitChar10_key h
    case isFalse h =>
      rw [List.mem_append] at hc
      rcases hc with hc | hc
      · exact ih (n / 10) (Nat.div_lt_self (by omega) (by omega)) c hc
      · simp at hc; subst hc; exact digitChar10_key (Nat.mod_lt _ (by omega))

theorem digitsVal_append_one (l : List Char) (c : Char) :
    digitsVal (l ++ [c]) = digitsVal l * 10 + (c.toNat - '0'.toNat) := by
  simp [digitsVal, List.foldl_append]

theorem natDigits_val {n : Nat} : digitsVal (natDigits n) = n := by
  induction n using Nat.strong_induction_on with
  | _ n ih =>
    unfold natDigits
    split
    case isTrue h => simpa [digitsVal] using digitChar10_val h
    case isFalse h =>
      rw [digitsVal_append_one,
        ih (n / 10) (Nat.div_lt_self (by omega) (by omega)),
        digitChar10_val (Nat.mod_lt _ (by omega))]
      omega

theorem natDigits_inj {m n : Nat} (h : natDigits m = natDigits n) : m = n := by
  have := natDigits_val (n := m)
  rw [h, natDigits_val] at this
  omega

theorem natDigits_no_minus {n : Nat} : '-' ∉ natDigits n := by
  intro hmem
  have := natDigits_key '-' hmem
  simp [isKeyDigit] at this

theorem intChars_inj {a b : Int} (h : intChars a = intChars b) : a = b := by
  cases a with
  | ofNat m =>
    cases b with
    | ofNat n => simp [intChars] at h; rw [natDigits_inj h]
    | negSucc n =>
      simp [intChars] at h
      exact absurd (h ▸ List.mem_cons_self '-' _) natDigits_no_minus
  | negSucc m =>
    cases b with
    | ofNat n =>
      simp [intChars] at h
      exact absurd (h.symm ▸ List.mem_cons_self '-' _) natDigits_no_minus
    | negSucc n =>
      simp [intChars] at h
      have h2 := natDigits_inj h
      congr 1
      omega

end Morphy
namespace Morphy

theorem intChars_key {a : Int} : ∀ c ∈ intChars a, isKeyDigit c = true ∨ c = '-' := by
  cases a with
  | ofNat m => intro c hc; exact Or.inl (natDigits_key c hc)
  | negSucc m =>
    intro c hc
    simp only [intChars, List.mem_cons] at hc
    rcases hc with rfl | hc
    · exact Or.inr rfl
    · exact Or.inl (natDigits_key c hc)

theorem intChars_no_colon {a : Int} : ':' ∉ intChars a := by
  intro hmem
  rcases intChars_key ':' hmem with h | h <;> simp [isKeyDigit] at h

theorem amtKeyStr_no_underscore (q : Option ℚ) : '_' ∉ (amtKeyStr q).data := by
  cases q with
  | none => decide
  | some q =>
    intro hmem
    simp only [amtKeyStr, List.mem_append, List.mem_cons] at hmem
    rcases hmem with h | h | h
    · rcases intChars_key '_' h with h2 | h2 <;> simp [isKeyDigit] at h2
    · simp at h
    · have := natDigits_key '_' h; simp [isKeyDigit] at this

theorem append_sep_inj {sep : Char} :
    ∀ {a b x y : List Char}, sep ∉ a → sep ∉ b →
      a ++ sep :: x = b ++ sep :: y → a = b ∧ x = y := by
  intro a
  induction a with
  | nil =>
    intro b x y _ hb h
    cases b with
    | nil => simpa using h
    | cons d b' =>
      simp only [List.nil_append, List.cons_append, List.cons.injEq] at h
      rw [← h.1] at hb
      exact absurd (List.mem_cons_self sep b') hb
  | cons c a' ih =>
    intro b x y ha hb h
    cases b with
    | nil =>
      simp only [List.cons_append, List.nil_append, List.cons.injEq] at h
      rw [h.1] at ha
      exact absurd (List.mem_cons_self sep a') ha
    | cons d b' =>
      simp only [List.cons_append, List.cons.injEq] at h
      obtain ⟨rfl, h2⟩ := h
      obtain ⟨h3, h4⟩ := ih (by simp_all) (by simp_all) h2
      exact ⟨by rw [h3], h4⟩

theorem amtKeyStr_inj {q1 q2 : Option ℚ} (h : amtKeyStr q1 = amtKeyStr q2) :
    q1 = q2 := by
  cases q1 with
  | none =>
    cases q2 with
    | none => rfl
    | some q =>
      have hd := congrArg String.data h
      simp only [amtKeyStr] at hd
      have hmem : ':' ∈ intChars q.num ++ ':' :: natDigits q.den := by simp
      rw [← hd] at hmem
      simp at hmem
  | some q =>
    cases q2 with
    | none =>
      have hd := congrArg String.data h
      simp only [amtKeyStr] at hd
      have hmem : ':' ∈ intChars q.num ++ ':' :: natDigits q.den := by simp
      rw [hd] at hmem
      simp at hmem
    | some q' =>
      have hd := congrArg String.data h
      simp only [amtKeyStr] at hd
      obtain ⟨h1, h2⟩ := append_sep_inj intChars_no_colon intChars_no_colon hd
      congr 1
      have hnum := intChars_inj h1
      have hden := natDigits_inj h2
      exact Rat.ext hnum hden

end Morphy
namespace Morphy

/-- Spec-side: two transactions with the identical `(date, amount,
description)` triple. -/
def sameTriple (u t : Transaction) : Bool :=
  decide (u.date = t.date ∧ u.amount = t.amount ∧ u.description = t.description)

theorem txnKey_data (t : Transaction) :
    (txnKey t).data = (dateKeyStr t.date).data ++
      '_' :: ((amtKeyStr t.amount).data ++ '_' :: t.description.data) := by
  simp [txnKey, String.data_append]

theorem txnKey_eq_iff {t u : Transaction}
    (h1t : '_' ∉ (dateKeyStr t.date).data) (h1u : '_' ∉ (dateKeyStr u.date).data)
    (h2 : dateKeyStr t.date = dateKeyStr u.date → t.date = u.date) :
    txnKey t = txnKey u ↔
      (t.date = u.date ∧ t.amount = u.amount ∧ t.description = u.description) := by
  constructor
  · intro h
    have hd := congrArg String.data h
    rw [txnKey_data, txnKey_data] at hd
    obtain ⟨hdate, hrest⟩ := append_sep_inj h1t h1u hd
    obtain ⟨hamt, hdesc⟩ := append_sep_inj (amtKeyStr_no_underscore _)
      (amtKeyStr_no_underscore _) hrest
    refine ⟨h2 (String.ext hdate), amtKeyStr_inj (String.ext hamt), String.ext hdesc⟩
  · rintro ⟨hd, ha, hde⟩
    simp [txnKey, hd, ha, hde]

theorem findIdx?_congr_mem {α : Type} {p q : α → Bool} :
    ∀ {l : List α}, (∀ u ∈ l, p u = q u) → ∀ i, l.findIdx? p i = l.findIdx? q i := by
  intro l
  induction l with
  | nil => intro _ _; rfl
  | cons a l ih =>
    intro h i
    rw [List.findIdx?_cons, List.findIdx?_cons, h a (List.mem_cons_self a l)]
    split
    · rfl
    · exact ih (fun u hu => h u (List.mem_cons_of_mem a hu)) (i + 1)

end Morphy
namespace Morphy

def keySpecAux : List Transaction → List Transaction → List VFinding
  | _, [] => []
  | pre, t :: rest =>
    match pre.findIdx? (fun u => decide (txnKey u = txnKey t)) with
    | some j => dupFinding pre.length j :: keySpecAux (pre ++ [t]) rest
    | none => keySpecAux (pre ++ [t]) rest

def SeenInv (pre : List Transaction) (seen : List (String × Nat)) : Prop :=
  ∀ k, ((seen.find? fun e => decide (e.1 = k)).map fun e => e.2) =
    pre.findIdx? fun u => decide (txnKey u = k)

theorem dupLoop_eq_keySpec :
    ∀ (rest pre : List Transaction) (seen : List (String × Nat)),
      SeenInv pre seen → dupLoop rest pre.length seen = keySpecAux pre rest := by
  intro rest
  induction rest with
  | nil => intro pre seen _; rfl
  | cons t rest ih =>
    intro pre seen hseen
    have hkey := hseen (txnKey t)
    unfold dupLoop keySpecAux
    cases hfind : pre.findIdx? (fun u => decide (txnKey u = txnKey t)) with
    | some j =>
      rw [hfind] at hkey
      obtain ⟨e, he, he2⟩ : ∃ e, (seen.find? fun e => decide (e.1 = txnKey t)) = some e ∧ e.2 = j := by
        cases hf : (seen.find? fun e => decide (e.1 = txnKey t)) with
        | none => rw [hf] at hkey; simp at hkey
        | some e => rw [hf] at hkey; simp at hkey; exact ⟨e, rfl, hkey⟩
      have hnext : dupLoop rest (pre.length + 1) seen = keySpecAux (pre ++ [t]) rest := by
        have : (pre ++ [t]).length = pre.length + 1 := by simp
        rw [← this]
        apply ih
        intro k
        rw [hseen k, List.findIdx?_append]
        cases hpk : pre.findIdx? (fun u => decide (txnKey u = k)) with
        | some j' => simp
        | none =>
          simp only [Option.none_or]
          by_cases hk : txnKey t = k
          · subst hk
            rw [hpk] at hfind
            simp at hfind
          · simp [List.findIdx?_cons, hk]
      rw [he]
      simp only [he2, hnext]
    | none =>
      rw [hfind] at hkey
      have hf : (seen.find? fun e => decide (e.1 = txnKey t)) = none := by
        cases hf : (seen.find? fun e => decide (e.1 = txnKey t)) with
        | none => rfl
        | some e => rw [hf] at hkey; simp at hkey
      rw [hf]
      have : (pre ++ [t]).length = pre.length + 1 := by simp
      rw [← this]
      apply ih
      intro k
      rw [List.find?_cons]
      by_cases hk : txnKey t = k
      · subst hk
        rw [List.findIdx?_append, hfind]
        simp [List.findIdx?_cons]
      · have : (decide ((txnKey t, pre.length).1 = k)) = false := by
          simp [hk]
        rw [this, hseen k, List.findIdx?_append]
        cases hpk : pre.findIdx? (fun u => decide (txnKey u = k)) with
        | some j' => simp
        | none => simp [List.findIdx?_cons, hk]

end Morphy
namespace Morphy

/-- Spec-side: the claim's duplicate warning — MEDIUM severity,
`DUPLICATE_TRANSACTION`, context referencing the flagged index and the first
occurrence's index. -/
def specDupWarning (i firstIdx : Nat) : VFinding :=
  { code := "DUPLICATE_TRANSACTION",
    message := "Potential duplicate transaction at index " ++ toString i,
    severity := some "MEDIUM", ctxIndex := some i,
    ctxDuplicateOf := some firstIdx }

/-- Spec-side duplicate-detection recursion (claim C4): walking the list with
the already-seen prefix `pre`, a transaction is flagged exactly when some
earlier transaction has the identical triple, and the warning references the
index of the first such occurrence; first occurrences are never flagged. -/
def duplicateSpecAux : List Transaction → List Transaction → List VFinding
  | _, [] => []
  | pre, t :: rest =>
    match pre.findIdx? (fun u => sameTriple u t) with
    | some j => specDupWarning pre.length j :: duplicateSpecAux (pre ++ [t]) rest
    | none => duplicateSpecAux (pre ++ [t]) rest

def duplicateSpecWarnings (txs : List Transaction) : List VFinding :=
  duplicateSpecAux [] txs

theorem keySpec_eq_dupSpec (txs : List Transaction)
    (H1 : ∀ t ∈ txs, '_' ∉ (dateKeyStr t.date).data)
    (H2 : ∀ t ∈ txs, ∀ u ∈ txs, dateKeyStr t.date = dateKeyStr u.date → t.date = u.date) :
    ∀ (rest pre : List Transaction), (∀ u ∈ pre, u ∈ txs) → (∀ u ∈ rest, u ∈ txs) →
      keySpecAux pre rest = duplicateSpecAux pre rest := by
  intro rest
  induction rest with
  | nil => intro pre _ _; rfl
  | cons t rest ih =>
    intro pre hpre hrest
    have ht : t ∈ txs := hrest t (List.mem_cons_self t rest)
    have hpred : ∀ u ∈ pre, (fun u => decide (txnKey u = txnKey t)) u = sameTriple u t := by
      intro u hu
      have hiff := txnKey_eq_iff (H1 u (hpre u hu)) (H1 t ht)
        (H2 u (hpre u hu) t ht)
      simp only [sameTriple]
      exact decide_eq_decide.mpr hiff
    unfold keySpecAux duplicateSpecAux
    rw [show pre.findIdx? (fun u => decide (txnKey u = txnKey t)) =
      pre.findIdx? (fun u => sameTriple u t) from findIdx?_congr_mem hpred 0]
    have hnext := ih (pre ++ [t])
      (by intro u hu; rcases List.mem_append.mp hu with h | h
          · exact hpre u h
          · simp at h; subst h; exact ht)
      (fun u hu => hrest u (List.mem_cons_of_mem t hu))
    cases pre.findIdx? (fun u => sameTriple u t) with
    | some j => simpa [specDupWarning, dupFinding] using hnext
    | none => simpa using hnext

theorem duplicateSpecAux_shape :
    ∀ (rest pre : List Transaction), ∀ w ∈ duplicateSpecAux pre rest,
      w.code = "DUPLICATE_TRANSACTION" ∧ w.severity = some "MEDIUM" := by
  intro rest
  induction rest with
  | nil => intro pre w hw; simp [duplicateSpecAux] at hw
  | cons t rest ih =>
    intro pre w hw
    unfold duplicateSpecAux at hw
    cases hfi : pre.findIdx? (fun u => sameTriple u t) with
    | some j =>
      rw [hfi] at hw
      rcases List.mem_cons.mp hw with rfl | hw
      · exact ⟨rfl, rfl⟩
      · exact ih (pre ++ [t]) w hw
    | none =>
      rw [hfi] at hw
      exact ih (pre ++ [t]) w hw

/-- C4: under the benign key hypotheses (no date string contains an
underscore, and the date rendering is injective on the list — both hold for
every date this engine produces), `detectDuplicates` emits exactly the
spec-side warning list: a transaction is flagged iff an earlier transaction
has the identical `(date, amount, description)` triple, the first occurrence
is never flagged, each warning is MEDIUM `DUPLICATE_TRANSACTION`, and its
context references the first occurrence's index; no errors are emitted. -/
theorem c4_detectDuplicates (txs : List Transaction)
    (H1 : ∀ t ∈ txs, '_' ∉ (dateKeyStr t.date).data)
    (H2 : ∀ t ∈ txs, ∀ u ∈ txs, dateKeyStr t.date = dateKeyStr u.date → t.date = u.date) :
    (detectDuplicates txs).warnings = duplicateSpecWarnings txs ∧
      (detectDuplicates txs).errors = [] ∧ (detectDuplicates txs).valid = true ∧
      ∀ w ∈ (detectDuplicates txs).warnings,
        w.code = "DUPLICATE_TRANSACTION" ∧ w.severity = some "MEDIUM" := by
  have hmain : (detectDuplicates txs).warnings = duplicateSpecWarnings txs := by
    show dupLoop txs 0 [] = duplicateSpecWarnings txs
    have h0 : dupLoop txs (([] : List Transaction)).length [] = keySpecAux [] txs := by
      apply dupLoop_eq_keySpec
      intro k
      simp
    simpa using h0.trans
      (keySpec_eq_dupSpec txs H1 H2 txs [] (by simp) (fun u hu => hu))
  refine ⟨hmain, rfl, rfl, ?_⟩
  rw [hmain]
  exact fun w hw => duplicateSpecAux_shape txs [] w hw

def c4Demo : List Transaction :=
  [{ date := some "2024-01-01", amount := some 5, description := "Coffee" },
   { date := some "2024-01-02", amount := some 5, description := "Coffee" },
   { date := some "2024-01-01", amount := some 5, description := "Coffee" }]

/-- C4 (witness): the theorem applied to a concrete list whose third
transaction repeats the first's triple; the single warning flags index 2 and
references index 0. -/
theorem c4_witness :
    (detectDuplicates c4Demo).warnings = duplicateSpecWarnings c4Demo ∧
      (detectDuplicates c4Demo).warnings =
        [{ code := "DUPLICATE_TRANSACTION",
           message := "Potential duplicate transaction at index 2",
           severity := some "MEDIUM", ctxIndex := some 2,
           ctxDuplicateOf := some 0 }] := by
  refine ⟨(c4_detectDuplicates c4Demo (by decide) (by decide)).1, ?_⟩
  with_unfolding_all rfl

end Morphy

/-! ## Claim C5 — `detectBankFormat` -/

namespace Morphy

theorem detectLoop_spec (lines : List String) (all : List BankFormat) :
    ∀ rem : List BankFormat,
      (∃ (i : Nat) (g : BankFormat), rem[i]? = some g ∧ detectLoop lines all rem = some g ∧
        3 ≤ formatScore g lines ∧
        ∀ (j : Nat) (g' : BankFormat), j < i → rem[j]? = some g' → formatScore g' lines < 3) ∨
      ((∀ g ∈ rem, formatScore g lines < 3) ∧
        detectLoop lines all rem = genericFallback all) := by
  intro rem
  induction rem with
  | nil => exact Or.inr ⟨by simp, rfl⟩
  | cons f rem ih =>
    by_cases hs : 3 ≤ formatScore f lines
    · refine Or.inl ⟨0, f, by simp, ?_, hs, by omega⟩
      simp [detectLoop, hs]
    · have hdet : detectLoop lines all (f :: rem) = detectLoop lines all rem := by
        simp [detectLoop, hs]
      rcases ih with ⟨i, g, hget, hd, hscore, hbefore⟩ | ⟨hall, hd⟩
      · refine Or.inl ⟨i + 1, g, by simpa using hget, hdet.trans hd, hscore, ?_⟩
        intro j g' hj hg'
        cases j with
        | zero => simp at hg'; subst hg'; omega
        | succ j' =>
          simp only [List.getElem?_cons_succ] at hg'
          exact hbefore j' g' (by omega) hg'
      · refine Or.inr ⟨?_, hdet.trans hd⟩
        intro g hg
        rcases List.mem_cons.mp hg with rfl | hg
        · omega
        · exact hall g hg

/-- C5: over a non-empty registry, `detectBankFormat` scans only the first 50
lines of the text (texts agreeing there give the same answer) and returns the
first format in registry order whose total pattern-match count over all its
named patterns reaches 3; when no format reaches 3, it returns the registry's
generic format (the first with `bankId = "generic"`, or else the registry's
first format). -/
theorem c5_detectBankFormat (text : String) (formats : List BankFormat)
    (hne : formats ≠ []) :
    ∃ f, detectBankFormat text formats = some f ∧
      ((∃ i : Nat, formats[i]? = some f ∧
          3 ≤ formatScore f ((text.splitOn "\n").take 50) ∧
          ∀ (j : Nat) (g : BankFormat), j < i → formats[j]? = some g →
            formatScore g ((text.splitOn "\n").take 50) < 3) ∨
       ((∀ g ∈ formats, formatScore g ((text.splitOn "\n").take 50) < 3) ∧
        (formats.find? (fun g => g.bankId = "generic") = some f ∨
         (formats.find? (fun g => g.bankId = "generic") = none ∧
          formats.head? = some f)))) ∧
      ∀ text2, (text2.splitOn "\n").take 50 = (text.splitOn "\n").take 50 →
        detectBankFormat text2 formats = detectBankFormat text formats := by
  have hinv : ∀ text2, (text2.splitOn "\n").take 50 = (text.splitOn "\n").take 50 →
      detectBankFormat text2 formats = detectBankFormat text formats := by
    intro text2 h
    unfold detectBankFormat
    rw [h]
  rcases detectLoop_spec ((text.splitOn "\n").take 50) formats formats with
    ⟨i, g, hget, hd, hscore, hbefore⟩ | ⟨hall, hd⟩
  · exact ⟨g, hd, Or.inl ⟨i, hget, hscore, hbefore⟩, hinv⟩
  · unfold genericFallback at hd
    cases hfind : formats.find? (fun f => f.bankId = "generic") with
    | some f =>
      rw [hfind] at hd
      exact ⟨f, hd, Or.inr ⟨hall, Or.inl rfl⟩, hinv⟩
    | none =>
      rw [hfind] at hd
      cases formats with
      | nil => exact absurd rfl hne
      | cons f0 rest =>
        exact ⟨f0, hd, Or.inr ⟨hall, Or.inr ⟨rfl, rfl⟩⟩, hinv⟩

set_option maxRecDepth 8000 in
/-- C5 (witness): the theorem applied to a registry-default detection over a
text with no pattern matches; the generic format is selected. -/
theorem c5_witness :
    (∃ f, detectBankFormat "hello" getDefaultBankFormats = some f) ∧
      (detectBankFormat "hello" getDefaultBankFormats).map (fun f => f.bankId) =
        some "generic" := by
  obtain ⟨f, hdet, _, _⟩ := c5_detectBankFormat "hello" getDefaultBankFormats
    (by simp [getDefaultBankFormats])
  refine ⟨⟨f, hdet⟩, ?_⟩
  with_unfolding_all rfl

end Morphy

namespace Morphy

/-! ## Claim C1

Whether `amount` mirrors `debit`/`credit`, and how many of the two are
populated, per pattern kind. -/

lemma applyAmount_debit (t : Transaction) : (applyAmount t).debit = t.debit := by
  unfold applyAmount; split_ifs <;> rfl

lemma applyAmount_credit (t : Transaction) : (applyAmount t).credit = t.credit := by
  unfold applyAmount; split_ifs <;> rfl

lemma applyAmount_amount (t : Transaction) :
    (applyAmount t).amount =
      if jsTruthyQ t.debit then some (-(jsAbs (t.debit.getD 0)))
      else if jsTruthyQ t.credit then some (jsAbs (t.credit.getD 0))
      else t.amount := by
  unfold applyAmount; split_ifs <;> rfl

lemma buildFields_amount (name : String) (m : MatchGroups) (line : String)
    (ln : Nat) (now : Int) (format : BankFormat) :
    (buildFields name m line ln now format).amount = none := by
  unfold buildFields; split_ifs <;> rfl

lemma buildFields_one (name : String) (m : MatchGroups) (line : String)
    (ln : Nat) (now : Int) (format : BankFormat)
    (hname : name = "simple" ∨ name = "combined") :
    ((buildFields name m line ln now format).debit = none ∨
      (buildFields name m line ln now format).credit = none) ∧
    (parseAmount (mGet m 3) format ≠ none →
      ((buildFields name m line ln now format).debit ≠ none ∧
        (buildFields name m line ln now format).credit = none) ∨
      ((buildFields name m line ln now format).debit = none ∧
        (buildFields name m line ln now format).credit ≠ none)) := by
  rcases hname with h | h <;> subst h <;> unfold buildFields <;>
    split_ifs with h1 h2 h3 <;> simp_all

/-- Projections of the finished transaction agree with the staged fields. -/
lemma buildTransaction_fields (name : String) (m : MatchGroups) (line : String)
    (ln : Nat) (now : Int) (format : BankFormat) :
    (buildTransaction name m line ln now format).debit =
      (buildFields name m line ln now format).debit ∧
    (buildTransaction name m line ln now format).credit =
      (buildFields name m line ln now format).credit ∧
    (buildTransaction name m line ln now format).amount =
      (applyAmount (buildFields name m line ln now format)).amount := by
  unfold buildTransaction
  exact ⟨applyAmount_debit _, applyAmount_credit _, rfl⟩

/-- **C1.** Amended invariant of `parseTransactionLine`.  For every line whose
pattern match succeeds, the produced transaction `t` satisfies: `amount` is
`-|debit|` when `debit` is truthy (non-null and non-zero), else `+|credit|`
when `credit` is truthy, else null; for the `simple` and `combined` pattern
kinds at most one of `debit`/`credit` is non-null, and exactly one when the
amount group parses to a number.  (The original claim's "exactly one of
debit/credit is non-null" fails for the `standard` pattern kind, which can
populate both — see the counterexample.) -/
theorem c1_amended (line : String) (format : BankFormat)
    (ln : Nat) (now : Int) (name : String) (m : MatchGroups)
    (h : firstPatternMatch line format.patterns = some (name, m)) :
    ∃ t, parseTransactionLine line format ln now = some t ∧
      (jsTruthyQ t.debit = true → t.amount = some (-(jsAbs (t.debit.getD 0)))) ∧
      (jsTruthyQ t.debit = false → jsTruthyQ t.credit = true →
        t.amount = some (jsAbs (t.credit.getD 0))) ∧
      (jsTruthyQ t.debit = false → jsTruthyQ t.credit = false → t.amount = none) ∧
      ((name = "simple" ∨ name = "combined") →
        (t.debit = none ∨ t.credit = none) ∧
        (parseAmount (mGet m 3) format ≠ none →
          (t.debit ≠ none ∧ t.credit = none) ∨
          (t.debit = none ∧ t.credit ≠ none))) := by
  refine ⟨buildTransaction name m line ln now format, ?_, ?_, ?_, ?_, ?_⟩
  · unfold parseTransactionLine
    rw [h]
    rfl
  all_goals
    obtain ⟨hd, hc, ha⟩ := buildTransaction_fields name m line ln now format
  · intro h1
    rw [hd] at h1 ⊢
    rw [ha, applyAmount_amount, if_pos h1]
  · intro h1 h2
    rw [hd] at h1
    rw [hc] at h2 ⊢
    rw [ha, applyAmount_amount, if_neg (by simp [h1]), if_pos h2]
  · intro h1 h2
    rw [hd] at h1
    rw [hc] at h2
    rw [ha, applyAmount_amount, if_neg (by simp [h1]), if_neg (by simp [h2]),
      buildFields_amount]
  · intro hname
    obtain ⟨h1, h2⟩ := buildFields_one name m line ln now format hname
    rw [hd, hc]
    exact ⟨h1, h2⟩

/-- **C1** counterexample to the original claim: on a `standard`-pattern line
bearing separate debit and credit columns, the parsed transaction carries
BOTH a non-null debit and a non-null credit. -/
theorem c1_counterexample :
    (parseTransactionLine "01/15/2024 Grocery Store 45.67 100.00 1954.33"
        genericFormat 1 0).map (fun t => (t.debit, t.credit)) =
      some (some (4567/100), some 100) := by
  with_unfolding_all rfl

theorem c1_witness :
    firstPatternMatch "01/15/2024 Grocery Store 45.67 100.00 1954.33"
        genericFormat.patterns =
      some ("standard",
        [some "01/15/2024", some "Grocery Store", some "45.67", some "100.00",
          some "1954.33"]) ∧
    ∃ t, parseTransactionLine "01/15/2024 Grocery Store 45.67 100.00 1954.33"
        genericFormat 1 0 = some t ∧
      (jsTruthyQ t.debit = true → t.amount = some (-(jsAbs (t.debit.getD 0)))) ∧
      (jsTruthyQ t.debit = false → jsTruthyQ t.credit = true →
        t.amount = some (jsAbs (t.credit.getD 0))) ∧
      (jsTruthyQ t.debit = false → jsTruthyQ t.credit = false → t.amount = none) ∧
      (("standard" = "simple" ∨ "standard" = "combined") →
        (t.debit = none ∨ t.credit = none) ∧
        (parseAmount (mGet
            [some "01/15/2024", some "Grocery Store", some "45.67",
              some "100.00", some "1954.33"] 3) genericFormat ≠ none →
          (t.debit ≠ none ∧ t.credit = none) ∨
          (t.debit = none ∧ t.credit ≠ none))) :=
  ⟨by with_unfolding_all rfl,
    c1_amended _ _ 1 0 _ _ (by with_unfolding_all rfl)⟩

end Morphy

namespace Morphy

/-! ## Claim C7

What happens to a matched line whose amount group fails to parse. -/

lemma buildFields_none (name : String) (m : MatchGroups) (line : String)
    (ln : Nat) (now : Int) (format : BankFormat)
    (hname : name = "simple" ∨ name = "combined")
    (hpa : parseAmount (mGet m 3) format = none) :
    (buildFields name m line ln now format).debit = none ∧
    (buildFields name m line ln now format).credit = none := by
  rcases hname with h | h <;> subst h <;> unfold buildFields <;>
    split_ifs <;> simp_all

/-- A generic-shaped format whose `thousandsSeparator` is `"."`: its amount
normalizer strips dots and promotes the first comma to a decimal point, so a
matched amount group such as `,,12.34` cleans to a non-numeric string and
parses to null. -/
def dotSepFormat : BankFormat :=
  { genericFormat with bankId := "custom_dot", thousandsSeparator := "." }

/-- **C7.** Amended behaviour: when the amount normalizer yields null for the
amount group of a matched `simple`/`combined` pattern, the pattern match is
NOT discarded — `parseTransactionLine` still returns a transaction for the
line, with null `debit`, `credit` and `amount`; it is downstream validation
that rejects it with a blocking MISSING_AMOUNT error (the transaction stays
in the result list with status ERROR — see the counterexample). -/
theorem c7_amended (line : String) (format : BankFormat) (ln : Nat) (now : Int)
    (name : String) (m : MatchGroups)
    (h : firstPatternMatch line format.patterns = some (name, m))
    (hname : name = "simple" ∨ name = "combined")
    (hpa : parseAmount (mGet m 3) format = none) :
    ∃ t, parseTransactionLine line format ln now = some t ∧
      t.debit = none ∧ t.credit = none ∧ t.amount = none ∧
      (validateTransactionX t now).valid = false ∧
      missingAmountFinding ∈ (validateTransactionX t now).errors := by
  refine ⟨buildTransaction name m line ln now format, ?_, ?_⟩
  · unfold parseTransactionLine
    rw [h]
    rfl
  obtain ⟨hd, hc, ha⟩ := buildTransaction_fields name m line ln now format
  obtain ⟨hbd, hbc⟩ := buildFields_none name m line ln now format hname hpa
  have hdn : (buildTransaction name m line ln now format).debit = none := by
    rw [hd, hbd]
  have hcn : (buildTransaction name m line ln now format).credit = none := by
    rw [hc, hbc]
  have han : (buildTransaction name m line ln now format).amount = none := by
    rw [ha, applyAmount_amount, hbd, hbc, buildFields_amount]
    simp [jsTruthyQ]
  refine ⟨hdn, hcn, han, ?_, ?_⟩
  · unfold validateTransactionX
    simp [hdn, hcn, jsTruthyQ]
  · unfold validateTransactionX
    simp [hdn, hcn, jsTruthyQ]

/-- **C7** counterexample to the original claim: a line matched by the
`simple` pattern whose amount group parses to null is NOT treated as
non-transactional — the extraction result's transaction list contains a
transaction for that line (null debit/credit/amount, status ERROR, counted
invalid). -/
theorem c7_counterexample :
    parseAmount (some ",,12.34") dotSepFormat = none ∧
    ((extractTransactions (some "01/15/2024 Payment X ,,12.34 100.00")
        (some { bankFormat := some dotSepFormat }) [] 0).transactions.map
      fun t => (t.lineNumber, t.debit, t.credit, t.amount, t.processingStatus)) =
      [(some 1, none, none, none, "ERROR")] ∧
    (extractTransactions (some "01/15/2024 Payment X ,,12.34 100.00")
        (some { bankFormat := some dotSepFormat }) [] 0).invalidTransactions = 1 :=
  ⟨by with_unfolding_all rfl, by with_unfolding_all rfl, by with_unfolding_all rfl⟩

theorem c7_witness :
    firstPatternMatch "01/15/2024 Payment X ,,12.34 100.00" dotSepFormat.patterns =
      some ("simple",
        [some "01/15/2024", some "Payment X", some ",,12.34", some "100.00"]) ∧
    parseAmount (mGet
        [some "01/15/2024", some "Payment X", some ",,12.34", some "100.00"] 3)
      dotSepFormat = none ∧
    ∃ t, parseTransactionLine "01/15/2024 Payment X ,,12.34 100.00"
        dotSepFormat 1 0 = some t ∧
      t.debit = none ∧ t.credit = none ∧ t.amount = none ∧
      (validateTransactionX t 0).valid = false ∧
      missingAmountFinding ∈ (validateTransactionX t 0).errors :=
  ⟨by with_unfolding_all rfl, by with_unfolding_all rfl,
    c7_amended _ _ 1 0 _ _ (by with_unfolding_all rfl) (Or.inl rfl)
      (by with_unfolding_all rfl)⟩

end Morphy

namespace Morphy

/-! ## Claim C2

Running-balance back-fill of `postProcessTransactions`. -/

lemma backfill_balance (ts : List Transaction) :
    ∀ (run : ℚ) (i : Nat) (t : Transaction),
      (backfillBalances ts run)[i]? = some t →
      t.balance = some (run + (((backfillBalances ts run).take (i + 1)).map
        (fun u => toNum u.amount)).sum) := by
  induction ts with
  | nil =>
    intro run i t h
    simp [backfillBalances] at h
  | cons x ts ih =>
    intro run i t h
    match i with
    | 0 =>
      simp only [backfillBalances] at h ⊢
      rw [List.getElem?_cons_zero] at h
      obtain rfl := Option.some.inj h
      simp
    | i + 1 =>
      simp only [backfillBalances] at h ⊢
      rw [List.getElem?_cons_succ] at h
      rw [ih (run + toNum x.amount) i t h]
      simp [add_assoc]

/-- **C2.** If no transaction of the batch carries a balance, post-processing
with a known opening balance `b0` gives every position of the (date-sorted)
output a balance equal to `b0` plus the sum of the amounts up to and
including that position (`amount || 0`); and as soon as some transaction
carries a balance, post-processing is exactly the date sort — no balance is
overwritten or back-filled. -/
theorem c2_postProcess (txs : List Transaction) (b0 : ℚ) (ob : Option ℚ) :
    ((∀ t ∈ txs, t.balance = none) →
      ∀ (i : Nat) (t : Transaction),
        (postProcessTransactions txs (some b0))[i]? = some t →
        t.balance = some (b0 +
          (((postProcessTransactions txs (some b0)).take (i + 1)).map
            (fun u => toNum u.amount)).sum)) ∧
    ((∃ t ∈ txs, t.balance ≠ none) →
      postProcessTransactions txs ob = sortByDate txs) := by
  constructor
  · intro h1 i t ht
    by_cases he : txs.isEmpty
    · unfold postProcessTransactions at ht
      rw [if_pos he] at ht
      rcases txs with _ | ⟨a, as⟩
      · simp at ht
      · simp [List.isEmpty] at he
    · have hnb : (sortByDate txs).any (fun u => u.balance.isSome) = false := by
        rw [List.any_eq_false]
        intro u hu
        have hm : u ∈ txs := (List.perm_insertionSort _ txs).mem_iff.mp hu
        simp [h1 u hm]
      have hpp : postProcessTransactions txs (some b0) =
          backfillBalances (sortByDate txs) b0 := by
        unfold postProcessTransactions
        rw [if_neg he]
        simp [hnb]
      rw [hpp] at ht ⊢
      exact backfill_balance (sortByDate txs) b0 i t ht
  · rintro ⟨u, hu, hub⟩
    have hne : txs.isEmpty = false := by
      cases txs
      · simp at hu
      · rfl
    have hb : (sortByDate txs).any (fun v => v.balance.isSome) = true := by
      rw [List.any_eq_true]
      refine ⟨u, (List.perm_insertionSort _ txs).mem_iff.mpr hu, ?_⟩
      simp [Option.isSome_iff_ne_none, hub]
    unfold postProcessTransactions
    rw [if_neg (by simp [hne])]
    simp [hb, sortByDate]
    intro h1'
    exact fun _ => absurd (h1' u hu) hub

/-- Spec §8 scenario B: opening balance 500, amounts −20, +100, −5. -/
def c2Txs : List Transaction :=
  [ { date := some "2024-01-15", amount := some (-20) },
    { date := some "2024-01-16", amount := some 100 },
    { date := some "2024-01-17", amount := some (-5) } ]

/-- The last element of the post-processed scenario-B batch. -/
def c2Out2 : Transaction :=
  { date := some "2024-01-17", amount := some (-5), balance := some 575,
    notes := " (Balance calculated)" }

theorem c2_witness :
    (∀ t ∈ c2Txs, t.balance = none) ∧
    ((postProcessTransactions c2Txs (some 500)).map fun t => t.balance) =
      [some 480, some 580, some 575] ∧
    (postProcessTransactions c2Txs (some 500))[2]? = some c2Out2 ∧
    c2Out2.balance = some (500 +
      (((postProcessTransactions c2Txs (some 500)).take 3).map
        (fun u => toNum u.amount)).sum) := by
  have h1 : ∀ t ∈ c2Txs, t.balance = none := by decide
  have ht : (postProcessTransactions c2Txs (some 500))[2]? = some c2Out2 := by
    with_unfolding_all rfl
  exact ⟨h1, by with_unfolding_all rfl, ht,
    (c2_postProcess c2Txs 500 none).1 h1 2 c2Out2 ht⟩

end Morphy

namespace Morphy

/-! ## Claim C9

Order of the result's transaction list: non-decreasing date key, input order
on ties (`Array.prototype.sort` is stable). -/

lemma pairwise_orderedInsert {α : Type} (r : α → α → Prop) [DecidableRel r]
    (P : α → α → Prop) (hcomp : ∀ a b, ¬r a b → P b a) :
    ∀ (s : List α) (a : α), s.Pairwise P → (∀ x ∈ s, P a x) →
      (s.orderedInsert r a).Pairwise P := by
  intro s
  induction s with
  | nil =>
    intro a _ _
    simp
  | cons b s ih =>
    intro a hp ha
    simp only [List.orderedInsert]
    rcases hp with _ | ⟨hb, hp'⟩
    split_ifs with hr
    · exact List.Pairwise.cons ha (List.Pairwise.cons hb hp')
    · refine List.Pairwise.cons ?_
        (ih a hp' fun x hx => ha x (List.mem_cons_of_mem b hx))
      intro x hx
      rcases (List.mem_orderedInsert r).mp hx with rfl | hxs
      · exact hcomp _ b hr
      · exact hb x hxs

lemma pairwise_insertionSort {α : Type} (r : α → α → Prop) [DecidableRel r]
    (P : α → α → Prop) (hcomp : ∀ a b, ¬r a b → P b a) :
    ∀ (l : List α), l.Pairwise P → (l.insertionSort r).Pairwise P := by
  intro l
  induction l with
  | nil =>
    intro _
    simp
  | cons a l ih =>
    intro hp
    rcases hp with _ | ⟨ha, hp'⟩
    rw [List.insertionSort]
    exact pairwise_orderedInsert r P hcomp _ a (ih hp')
      fun x hx => ha x ((List.perm_insertionSort r l).mem_iff.mp hx)

lemma backfill_map_key {α : Type} (f : Transaction → α)
    (hf : ∀ t b n, f { t with balance := b, notes := n } = f t) :
    ∀ (ts : List Transaction) (run : ℚ),
      (backfillBalances ts run).map f = ts.map f := by
  intro ts
  induction ts with
  | nil => intro run; rfl
  | cons t ts ih =>
    intro run
    simp only [backfillBalances, List.map_cons, ih, hf]

/-- The combined order invariant of the sorted (and possibly back-filled)
transaction list. -/
def OrderedOut (txs : List Transaction) : Prop :=
  txs.Pairwise fun t u => dateKeyD t ≤ dateKeyD u ∧
    (dateKeyD t = dateKeyD u → t.lineNumber.getD 0 < u.lineNumber.getD 0)

lemma orderedOut_of_map_pair (txs : List Transaction)
    (h : (txs.map fun t => (dateKeyD t, t.lineNumber.getD 0)).Pairwise
      fun p q => p.1 ≤ q.1 ∧ (p.1 = q.1 → p.2 < q.2)) : OrderedOut txs :=
  List.pairwise_map.mp h

lemma map_pair_of_orderedOut (txs : List Transaction) (h : OrderedOut txs) :
    (txs.map fun t => (dateKeyD t, t.lineNumber.getD 0)).Pairwise
      fun p q => p.1 ≤ q.1 ∧ (p.1 = q.1 → p.2 < q.2) :=
  List.pairwise_map.mpr h

lemma postProcess_pairwise (txs : List Transaction) (ob : Option ℚ)
    (h : txs.Pairwise fun t u => t.lineNumber.getD 0 < u.lineNumber.getD 0) :
    OrderedOut (postProcessTransactions txs ob) := by
  have hsorted : OrderedOut (sortByDate txs) := by
    have h1 : (sortByDate txs).Pairwise fun t u => dateKeyD t ≤ dateKeyD u := by
      haveI : IsTotal Transaction fun a b => dateKeyD a ≤ dateKeyD b :=
        ⟨fun a b => le_total _ _⟩
      haveI : IsTrans Transaction fun a b => dateKeyD a ≤ dateKeyD b :=
        ⟨fun a b c => le_trans⟩
      exact List.sorted_insertionSort _ txs
    have h2 : (sortByDate txs).Pairwise
        fun t u => dateKeyD t = dateKeyD u → t.lineNumber.getD 0 < u.lineNumber.getD 0 := by
      refine pairwise_insertionSort _ _
        (fun a b hr heq => absurd (le_of_eq heq.symm) hr) txs ?_
      refine h.imp ?_
      intro a b hlt heq
      exact hlt
    exact h1.and h2
  simp only [postProcessTransactions]
  split_ifs with he hbb
  · rcases txs with _ | ⟨a, as⟩
    · exact List.Pairwise.nil
    · simp at he
  · refine orderedOut_of_map_pair _ ?_
    rw [backfill_map_key (fun t => (dateKeyD t, t.lineNumber.getD 0))
      (fun t b n => rfl)]
    exact map_pair_of_orderedOut _ hsorted
  · exact hsorted

lemma buildFields_ln (name : String) (m : MatchGroups) (line : String)
    (ln : Nat) (now : Int) (format : BankFormat) :
    (buildFields name m line ln now format).lineNumber = some ln := by
  unfold buildFields
  split_ifs <;> rfl

lemma applyAmount_ln (t : Transaction) : (applyAmount t).lineNumber = t.lineNumber := by
  unfold applyAmount
  split_ifs <;> rfl

lemma buildTransaction_ln (name : String) (m : MatchGroups) (line : String)
    (ln : Nat) (now : Int) (format : BankFormat) :
    (buildTransaction name m line ln now format).lineNumber = some ln := by
  unfold buildTransaction
  exact (applyAmount_ln _).trans (buildFields_ln name m line ln now format)

lemma parseTransactionLine_ln (line : String) (format : BankFormat)
    (n : Nat) (now : Int) (t : Transaction)
    (h : parseTransactionLine line format n now = some t) :
    t.lineNumber = some n := by
  unfold parseTransactionLine at h
  cases hfp : firstPatternMatch line format.patterns with
  | none => rw [hfp] at h; simp at h
  | some nm =>
    rw [hfp] at h
    have h' : buildTransaction nm.1 nm.2 line n now format = t := by
      simpa using h
    rw [← h']
    exact buildTransaction_ln nm.1 nm.2 line n now format

/-- Every transaction collected by the per-line loop carries the line number
it was parsed at; line numbers strictly increase along the collected list and
are bounded below by the loop counter. -/
lemma processLines_ln (fmt : BankFormat) (now : Int) :
    ∀ (lines : List String) (n : Nat),
      (∀ t ∈ (processLines fmt now lines n).txs, n ≤ t.lineNumber.getD 0) ∧
      ((processLines fmt now lines n).txs).Pairwise
        (fun t u => t.lineNumber.getD 0 < u.lineNumber.getD 0) := by
  intro lines
  induction lines with
  | nil =>
    intro n
    exact ⟨fun t ht => absurd ht (List.not_mem_nil t), List.Pairwise.nil⟩
  | cons line rest ih =>
    intro n
    obtain ⟨ih1, ih2⟩ := ih (n + 1)
    simp only [processLines]
    split_ifs with hskip
    · exact ⟨fun t ht => le_trans (Nat.le_succ n) (ih1 t ht), ih2⟩
    · cases hp : parseTransactionLine line fmt n now with
      | none => exact ⟨fun t ht => le_trans (Nat.le_succ n) (ih1 t ht), ih2⟩
      | some txn =>
        have hln : txn.lineNumber = some n := parseTransactionLine_ln _ _ _ _ _ hp
        dsimp only
        split_ifs <;>
          (constructor
           · intro t ht
             rcases List.mem_cons.mp ht with rfl | hmem
             · simp [hln]
             · exact le_trans (Nat.le_succ n) (ih1 t hmem)
           · refine List.Pairwise.cons ?_ ih2
             intro u hu
             have hb := ih1 u hu
             simp only [hln, Option.getD_some]
             omega)

/-- Shape of the transaction list of every extraction result: empty on the
abort paths, otherwise the post-processed per-line loop output. -/
lemma extract_txs_cases (text : Option String) (options : Option ExtractionOptions)
    (formats : List BankFormat) (now : Int) :
    (extractTransactions text options formats now).transactions = [] ∨
    ∃ fmt s, (extractTransactions text options formats now).transactions =
      postProcessTransactions
        (processLines fmt now ((cleanText s).splitOn "\n") 1).txs
        (extractBalances s).1 := by
  rcases options with _ | ⟨bf⟩
  · left; rfl
  · rcases bf with _ | f
    · rcases text with _ | s
      · left; rfl
      · unfold extractTransactions extractBody
        dsimp only
        rcases hd : detectBankFormat s formats with _ | fmt
        · left; rfl
        · right; exact ⟨fmt, s, rfl⟩
    · rcases text with _ | s
      · left; rfl
      · right; exact ⟨f, s, rfl⟩

/-- **C9.** In every extraction result, the transaction list is ordered: the
date sort key (`new Date(date)`, an unparseable date keying 0) is
non-decreasing along the list, and two transactions with equal keys occur in
input-line order (strictly increasing line numbers) — the stable sort keeps
ties in input order. -/
theorem c9_sorted (text : Option String) (options : Option ExtractionOptions)
    (formats : List BankFormat) (now : Int) :
    ((extractTransactions text options formats now).transactions).Pairwise
      (fun t u => dateKeyD t ≤ dateKeyD u ∧
        (dateKeyD t = dateKeyD u → t.lineNumber.getD 0 < u.lineNumber.getD 0)) := by
  rcases extract_txs_cases text options formats now with h | ⟨fmt, s, h⟩
  · rw [h]
    exact List.Pairwise.nil
  · rw [h]
    exact postProcess_pairwise _ _ (processLines_ln fmt now _ 1).2

end Morphy

namespace Morphy

/-! ## Claim C10

The `try`/`catch` wrapper of `extractTransactions`. -/

/-- **C10.** `extractTransactions` is total (a function in this model) and
converts every internal throw — modelled as `extractBody` returning
`Except.error` with the result object as mutated so far — into a normal
return: the caller receives a result with `success = false` carrying an
`EXTRACTION_FAILED` error entry, and no exception propagates. -/
theorem c10_total (text : Option String) (options : Option ExtractionOptions)
    (formats : List BankFormat) (now : Int) (r : ExtractionResult)
    (h : extractBody text options formats now = .error r) :
    (extractTransactions text options formats now).success = false ∧
    (extractTransactions text options formats now).errors =
      r.errors ++ [extractionFailedEntry] ∧
    ∃ e ∈ (extractTransactions text options formats now).errors,
      e.code = some "EXTRACTION_FAILED" := by
  unfold extractTransactions
  rw [h]
  refine ⟨rfl, rfl, extractionFailedEntry, ?_, rfl⟩
  simp

theorem c10_witness :
    extractBody none (some {}) [] 0 = .error {} ∧
    ((extractTransactions none (some {}) [] 0).success = false ∧
      (extractTransactions none (some {}) [] 0).errors =
        ({} : ExtractionResult).errors ++ [extractionFailedEntry] ∧
      ∃ e ∈ (extractTransactions none (some {}) [] 0).errors,
        e.code = some "EXTRACTION_FAILED") :=
  ⟨rfl, c10_total none (some {}) [] 0 {} rfl⟩

end Morphy

namespace Morphy

/-! ## Claim C8

Status and counting of retained transactions versus their validation
outcome. -/

lemma validateDate_valid_iff (d : Option String) (now : Int) :
    (validateDate d now).valid = true ↔ (validateDate d now).error.errors = [] := by
  unfold validateDate
  rcases d with _ | s
  · simp [addError]
  · dsimp only
    split_ifs with h1
    · simp [addError]
    · cases hjd : jsDateMs s with
      | none => simp [addError]
      | some ms =>
        dsimp only
        split_ifs with h2
        · simp [hasErrors, addError]
        · simp [hasErrors]

lemma validateX_valid_iff (t : Transaction) (now : Int) :
    (validateTransactionX t now).valid = true ↔
      (validateTransactionX t now).errors = [] := by
  have hd := validateDate_valid_iff t.date now
  unfold validateTransactionX
  dsimp only
  by_cases h1 : (validateDate t.date now).valid = true
  · by_cases h2 : (!jsTruthyQ t.debit && !jsTruthyQ t.credit) = true
    · simp [h1, h2, missingAmountFinding]
    · simp [h1, h2]
  · rw [Bool.not_eq_true] at h1
    rw [h1] at hd
    simp only [Bool.false_eq_true, false_iff] at hd
    by_cases h2 : (!jsTruthyQ t.debit && !jsTruthyQ t.credit) = true
    · simp [h1, h2]
    · simp [h1, h2, hd]

lemma validateX_status (txn : Transaction) (now : Int) (s : String) :
    validateTransactionX { txn with processingStatus := s } now =
      validateTransactionX txn now := rfl

lemma validateX_statusErr (txn : Transaction) (now : Int) (s : String)
    (es : List String) :
    validateTransactionX
        { txn with processingStatus := s, errorMessages := es } now =
      validateTransactionX txn now := rfl

/-- **C8.** Amended status/counting behaviour of the per-line loop: a
retained transaction whose validation produced NO blocking errors gets
`processingStatus = "VALID"` and counts towards `validTransactions` even when
record-level warnings are present (not `WARNING` as claimed); `WARNING` is
assigned only when blocking errors AND warnings are both present, `ERROR`
when only blocking errors are; exactly the transactions with blocking errors
count towards `invalidTransactions`. -/
theorem c8_amended (fmt : BankFormat) (now : Int) (lines : List String) (n : Nat) :
    (∀ t ∈ (processLines fmt now lines n).txs,
      ((validateTransactionX t now).errors = [] →
        t.processingStatus = "VALID") ∧
      ((validateTransactionX t now).errors ≠ [] →
        t.processingStatus =
          if (validateTransactionX t now).warnings.isEmpty then "ERROR"
          else "WARNING")) ∧
    (processLines fmt now lines n).validC =
      ((processLines fmt now lines n).txs).countP
        (fun t => (validateTransactionX t now).errors.isEmpty) ∧
    (processLines fmt now lines n).invalidC =
      ((processLines fmt now lines n).txs).countP
        (fun t => !(validateTransactionX t now).errors.isEmpty) := by
  induction lines generalizing n with
  | nil =>
    exact ⟨fun t ht => absurd ht (List.not_mem_nil t), rfl, rfl⟩
  | cons line rest ih =>
    obtain ⟨ih1, ih2, ih3⟩ := ih (n + 1)
    simp only [processLines]
    split_ifs with hskip
    · exact ⟨ih1, ih2, ih3⟩
    · cases hp : parseTransactionLine line fmt n now with
      | none => exact ⟨ih1, ih2, ih3⟩
      | some txn =>
        dsimp only
        by_cases hv : (validateTransactionX txn now).valid = true
        · rw [if_pos hv]
          have herr : (validateTransactionX txn now).errors = [] :=
            (validateX_valid_iff txn now).mp hv
          have hst := validateX_status txn now "VALID"
          refine ⟨?_, ?_, ?_⟩
          · intro t ht
            rcases List.mem_cons.mp ht with rfl | hmem
            · exact ⟨fun _ => rfl, fun hne => absurd (hst ▸ herr) hne⟩
            · exact ih1 t hmem
          · simp only [List.countP_cons, hst, herr, List.isEmpty_nil, ih2]
            rfl
          · simp only [List.countP_cons, hst, herr, List.isEmpty_nil, ih3]
            rfl
        · rw [if_neg hv]
          have herr : (validateTransactionX txn now).errors ≠ [] := fun hE =>
            hv ((validateX_valid_iff txn now).mpr hE)
          have hie : (validateTransactionX txn now).errors.isEmpty = false := by
            rcases hE : (validateTransactionX txn now).errors with _ | ⟨e, es⟩
            · exact absurd hE herr
            · rfl
          have hst := validateX_statusErr txn now
            (if (!(validateTransactionX txn now).warnings.isEmpty) = true
              then "WARNING" else "ERROR")
            ((validateTransactionX txn now).errors.map fun e => e.message)
          refine ⟨?_, ?_, ?_⟩
          · intro t ht
            rcases List.mem_cons.mp ht with rfl | hmem
            · refine ⟨fun hE => absurd (hst ▸ hE) herr, fun _ => ?_⟩
              show (if (!(validateTransactionX txn now).warnings.isEmpty) = true
                  then "WARNING" else "ERROR") = _
              rw [hst]
              cases hw : (validateTransactionX txn now).warnings.isEmpty <;>
                simp [hw]
            · exact ih1 t hmem
          · simp only [List.countP_cons, hst, hie, ih2]
            rfl
          · simp only [List.countP_cons, hst, hie, ih3]
            rfl

/-- A reference "now": 2026-01-01T00:00:00Z in ms. -/
def nowC : Int := 1767225600000

/-- `^(usdate)(\s)(amt)\s+(amt)\s*$` — a simple-kind pattern whose
description group captures only whitespace, so the parsed description trims
to the empty string and description validation reports findings. -/
def wsSimpleItems : List RItem :=
  usDateItems 1 ++ [.cls jsWs 1 none false (some 2)] ++ amtItems 3 ++ [ws1] ++
    amtItems 4 ++ [ws0]

def wsSimplePat (s : String) : Option MatchGroups :=
  runPattern wsSimpleItems 4 s

def wsDescFormat : BankFormat :=
  { genericFormat with bankId := "ws_desc", patterns := [("simple", wsSimplePat)] }

/-- **C8** counterexample to the original claim: a retained transaction whose
validation produced only record-level warnings (no blocking errors) has
`processingStatus = "VALID"` — not `WARNING` — and the result counts it valid
(`validTransactions = 1`, `invalidTransactions = 0`). -/
theorem c8_counterexample :
    ((extractTransactions (some "01/15/2024 45.67 100.00")
        (some { bankFormat := some wsDescFormat }) [] nowC).transactions.map
      fun t => ((validateTransactionX t nowC).errors.isEmpty,
        (validateTransactionX t nowC).warnings.isEmpty, t.processingStatus)) =
      [(true, false, "VALID")] ∧
    (extractTransactions (some "01/15/2024 45.67 100.00")
        (some { bankFormat := some wsDescFormat }) [] nowC).validTransactions = 1 ∧
    (extractTransactions (some "01/15/2024 45.67 100.00")
        (some { bankFormat := some wsDescFormat }) [] nowC).invalidTransactions = 0 :=
  ⟨by with_unfolding_all rfl, by with_unfolding_all rfl, by with_unfolding_all rfl⟩

theorem c8_witness :
    ((processLines wsDescFormat nowC ["01/15/2024 45.67 100.00"] 1).txs.map
      fun t => t.processingStatus) = ["VALID"] ∧
    (processLines wsDescFormat nowC ["01/15/2024 45.67 100.00"] 1).validC =
      ((processLines wsDescFormat nowC ["01/15/2024 45.67 100.00"] 1).txs).countP
        (fun t => (validateTransactionX t nowC).errors.isEmpty) ∧
    (processLines wsDescFormat nowC ["01/15/2024 45.67 100.00"] 1).invalidC =
      ((processLines wsDescFormat nowC ["01/15/2024 45.67 100.00"] 1).txs).countP
        (fun t => !(validateTransactionX t nowC).errors.isEmpty) :=
  ⟨by with_unfolding_all rfl,
    (c8_amended wsDescFormat nowC ["01/15/2024 45.67 100.00"] 1).2.1,
    (c8_amended wsDescFormat nowC ["01/15/2024 45.67 100.00"] 1).2.2⟩

theorem c9_witness :
    ((extractTransactions
        (some "01/16/2024 Second Item 10.00 20.00\n01/15/2024 First Item 5.00 15.00")
        (some { bankFormat := some genericFormat }) [] nowC).transactions).Pairwise
      (fun t u => dateKeyD t ≤ dateKeyD u ∧
        (dateKeyD t = dateKeyD u → t.lineNumber.getD 0 < u.lineNumber.getD 0)) :=
  c9_sorted
    (some "01/16/2024 Second Item 10.00 20.00\n01/15/2024 First Item 5.00 15.00")
    (some { bankFormat := some genericFormat }) [] nowC

end Morphy
